import Mathlib

/-
  Verification development for the frost ROS-bag v2.0 reader.

  The definitions below are a shallow embedding of the reader:
  byte streams are lists of naturals (byte values), a reader position is an
  explicit natural, machine integers are naturals produced by little-endian
  decoding, fallible operations return Except, and the panic sites of the
  iterator are modelled by Option / explicit outcome constructors.

  The embedding follows src/frost/src/lib.rs (record parsers, the record
  walking loop, the count checks and the chunk-header / chunk-info join),
  src/frost/src/util/parsing.rs (byte primitives),
  src/frost/src/util/time.rs (the Time type and its ordering) and
  src/frost/src/util/query.rs (Query, BagIter::new and BagIter::next).
  Definitions that embed code of this repository that is not present under
  src/ carry a doc comment starting with: Modelled from the spec.
-/

namespace Frost

/-! ### Errors

One constructor per distinct error construction site of the source.
The source raises std::io::Error values; the constructor names record which
site raised the error (for example notARosbag is the InvalidData error built
in Bag::version_check, and eof is the UnexpectedEof error of read_exact). -/

inductive Err where
  | eof
  | notARosbag
  | unindexedBag
  | bufferTooSmall
  | missingFieldSeparator
  | sliceOutOfBounds
  | unknownOpCode
  | missingHeaderOp
  | recordOpMismatch
  | unexpectedField
  | missingField
  | missingChunkBeforeIndex
  | chunkInfoCountMismatch
  | indexCountMismatch
  | unexpectedTopLevelOp
  | missingBagHeader
  | chunkCountMismatch
  | chunkInfoTotalMismatch
  | connCountMismatch
  | fuelExhausted
  | decompressionFailed
  | unsupportedCompression
deriving DecidableEq

/-! ### Bytes of an ASCII string (field names, compression names, topics) -/

def strBytes (s : String) : List Nat := s.data.map Char.toNat

/-! ### Byte primitives (src/frost/src/util/parsing.rs) -/

def leNat : List Nat → Nat
  | [] => 0
  | b :: rest => b + 256 * leNat rest

def parse_u8_at (buf : List Nat) (i : Nat) : Except Err Nat :=
  match buf[i]? with
  | some b => .ok b
  | none => .error .bufferTooSmall

def parse_u8 (buf : List Nat) : Except Err Nat := parse_u8_at buf 0

def parse_le_u32_at (buf : List Nat) (i : Nat) : Except Err Nat :=
  if i + 4 ≤ buf.length then .ok (leNat ((buf.drop i).take 4)) else .error .bufferTooSmall

def parse_le_u32 (buf : List Nat) : Except Err Nat := parse_le_u32_at buf 0

def parse_le_u64_at (buf : List Nat) (i : Nat) : Except Err Nat :=
  if i + 8 ≤ buf.length then .ok (leNat ((buf.drop i).take 8)) else .error .bufferTooSmall

def parse_le_u64 (buf : List Nat) : Except Err Nat := parse_le_u64_at buf 0

/-- read_exact of the std reader: consume exactly n bytes starting at pos,
failing with UnexpectedEof when the stream is too short. -/
def readExact (bs : List Nat) (pos n : Nat) : Except Err (List Nat × Nat) :=
  if pos + n ≤ bs.length then .ok ((bs.drop pos).take n, pos + n) else .error .eof

/-- read_le_u32 of src/frost/src/lib.rs: 4 bytes, little endian. -/
def read_le_u32 (bs : List Nat) (pos : Nat) : Except Err (Nat × Nat) :=
  match readExact bs pos 4 with
  | .error e => .error e
  | .ok (buf, pos2) => .ok (leNat buf, pos2)

/-- Bag::get_lengthed_bytes: a 4-byte little-endian length, then that many bytes. -/
def get_lengthed_bytes (bs : List Nat) (pos : Nat) : Except Err (List Nat × Nat) :=
  match read_le_u32 bs pos with
  | .error e => .error e
  | .ok (len, pos2) => readExact bs pos2 len

/-! ### Time (src/frost/src/util/time.rs) -/

structure Time where
  secs : Nat
  nsecs : Nat
deriving DecidableEq

/-- Total nanosecond position, the value that From of Time for Duration
computes: from_secs(secs) + from_nanos(nsecs). -/
def Time.toNanos (t : Time) : Nat := t.secs * 1000000000 + t.nsecs

/-- Ord for Time: Duration::from(self).cmp(Duration::from(other)), which
compares the total nanosecond positions. -/
def Time.cmp (a b : Time) : Ordering := compare a.toNanos b.toNanos

/-- PartialOrd lt for Time, derived from cmp. -/
def Time.ltB (a b : Time) : Bool := decide (a.toNanos < b.toNanos)

/-- PartialEq for Time: field-wise equality. -/
def Time.eqB (a b : Time) : Bool := decide (a.secs = b.secs ∧ a.nsecs = b.nsecs)

/-- Time::from: secs as u32 little endian, then nsecs as u32 little endian. -/
def Time.fromBytes (buf : List Nat) : Except Err Time :=
  match parse_le_u32 buf with
  | .error e => .error e
  | .ok secs =>
    match parse_le_u32_at buf 4 with
    | .error e => .error e
    | .ok nsecs => .ok { secs := secs, nsecs := nsecs }

/-! ### Field parsing (src/frost/src/lib.rs) -/

/-- field_sep_index: position of the first 61 (the equals sign). -/
def field_sep_index (buf : List Nat) : Except Err Nat :=
  match buf.findIdx? (fun b => b = 61) with
  | some i => .ok i
  | none => .error .missingFieldSeparator

/-- parse_field: u32 field length, then name, separator, value inside the
field slice.  The source indexes buf with i..i+field_len, which panics when
the slice leaves the buffer; the panic is the sliceOutOfBounds error here. -/
def parse_field (buf : List Nat) (i : Nat) : Except Err (Nat × List Nat × List Nat) :=
  match parse_le_u32_at buf i with
  | .error e => .error e
  | .ok fieldLen =>
    if i + 4 + fieldLen ≤ buf.length then
      let slice := (buf.drop (i + 4)).take fieldLen
      match field_sep_index slice with
      | .error e => .error e
      | .ok s => .ok (i + 4 + fieldLen, slice.take s, slice.drop (s + 1))
    else .error .sliceOutOfBounds

/-! ### Op codes -/

inductive OpCode where
  | bagHeader
  | chunkHeader
  | connectionHeader
  | messageData
  | indexDataHeader
  | chunkInfoHeader
deriving DecidableEq

/-- OpCode::from. -/
def OpCode.fromByte (b : Nat) : Except Err OpCode :=
  if b = 3 then .ok .bagHeader
  else if b = 5 then .ok .chunkHeader
  else if b = 7 then .ok .connectionHeader
  else if b = 2 then .ok .messageData
  else if b = 4 then .ok .indexDataHeader
  else if b = 6 then .ok .chunkInfoHeader
  else .error .unknownOpCode

/-- read_header_op: scan the header fields and return at the first op field. -/
def read_header_op_loop (buf : List Nat) : Nat → Nat → Except Err OpCode
  | 0, _ => .error .fuelExhausted
  | fuel + 1, i =>
    match parse_field buf i with
    | .error e => .error e
    | .ok (i2, name, value) =>
      if name = strBytes "op" then
        match parse_u8 value with
        | .error e => .error e
        | .ok b => OpCode.fromByte b
      else if buf.length ≤ i2 then .error .missingHeaderOp
      else read_header_op_loop buf fuel i2

def read_header_op (buf : List Nat) : Except Err OpCode :=
  read_header_op_loop buf (buf.length + 1) 0

/-- The shared shape of every record header parser: iterate parse_field from
offset 0, feed each (name, value) to a step function, stop once the whole
buffer is consumed.  The loop body runs at least once, as in the source. -/
def run_field_loop {σ : Type} (buf : List Nat)
    (step : σ → List Nat → List Nat → Except Err σ) : Nat → Nat → σ → Except Err σ
  | 0, _, _ => .error .fuelExhausted
  | fuel + 1, i, s =>
    match parse_field buf i with
    | .error e => .error e
    | .ok (i2, name, value) =>
      match step s name value with
      | .error e => .error e
      | .ok s2 => if buf.length ≤ i2 then .ok s2 else run_field_loop buf step fuel i2 s2

def parse_fields {σ : Type} (buf : List Nat)
    (step : σ → List Nat → List Nat → Except Err σ) (init : σ) : Except Err σ :=
  run_field_loop buf step (buf.length + 1) 0 init

/-- The op-field check shared by every record parser: parse the value as u8
and require the expected op code byte. -/
def check_op (value : List Nat) (expected : Nat) : Except Err Unit :=
  match parse_u8 value with
  | .error e => .error e
  | .ok b => if b = expected then .ok () else .error .recordOpMismatch

/-! ### Record headers (src/frost/src/lib.rs) -/

structure BagHeader where
  index_pos : Nat
  conn_count : Nat
  chunk_count : Nat
deriving DecidableEq

structure BagHeaderAcc where
  index_pos : Option Nat := none
  conn_count : Option Nat := none
  chunk_count : Option Nat := none

def BagHeader.step (s : BagHeaderAcc) (name value : List Nat) : Except Err BagHeaderAcc :=
  if name = strBytes "index_pos" then
    match parse_le_u64 value with
    | .error e => .error e
    | .ok v => .ok { s with index_pos := some v }
  else if name = strBytes "conn_count" then
    match parse_le_u32 value with
    | .error e => .error e
    | .ok v => .ok { s with conn_count := some v }
  else if name = strBytes "chunk_count" then
    match parse_le_u32 value with
    | .error e => .error e
    | .ok v => .ok { s with chunk_count := some v }
  else if name = strBytes "op" then
    match check_op value 3 with
    | .error e => .error e
    | .ok _ => .ok s
  else .error .unexpectedField

def BagHeader.fromBytes (buf : List Nat) : Except Err BagHeader :=
  match parse_fields buf BagHeader.step {} with
  | .error e => .error e
  | .ok acc =>
    match acc.index_pos with
    | none => .error .missingField
    | some ip =>
      match acc.conn_count with
      | none => .error .missingField
      | some cc =>
        match acc.chunk_count with
        | none => .error .missingField
        | some kc => .ok { index_pos := ip, conn_count := cc, chunk_count := kc }

structure ChunkHeader where
  compression : List Nat
  uncompressed_size : Nat
  compressed_size : Nat
  chunk_header_pos : Nat
  chunk_data_pos : Nat
deriving DecidableEq

structure ChunkHeaderAcc where
  compression : Option (List Nat) := none
  size : Option Nat := none

def ChunkHeader.step (s : ChunkHeaderAcc) (name value : List Nat) : Except Err ChunkHeaderAcc :=
  if name = strBytes "compression" then .ok { s with compression := some value }
  else if name = strBytes "size" then
    match parse_le_u32 value with
    | .error e => .error e
    | .ok v => .ok { s with size := some v }
  else if name = strBytes "op" then
    match check_op value 5 with
    | .error e => .error e
    | .ok _ => .ok s
  else .error .unexpectedField

def ChunkHeader.fromBytes (buf : List Nat) (chunk_header_pos chunk_data_pos compressed_size : Nat) :
    Except Err ChunkHeader :=
  match parse_fields buf ChunkHeader.step {} with
  | .error e => .error e
  | .ok acc =>
    match acc.compression with
    | none => .error .missingField
    | some comp =>
      match acc.size with
      | none => .error .missingField
      | some sz =>
        .ok { compression := comp, uncompressed_size := sz,
              compressed_size := compressed_size,
              chunk_header_pos := chunk_header_pos, chunk_data_pos := chunk_data_pos }

structure ChunkInfoHeader where
  version : Nat
  chunk_header_pos : Nat
  start_time : Time
  end_time : Time
  connection_count : Nat
deriving DecidableEq

structure ChunkInfoHeaderAcc where
  version : Option Nat := none
  chunk_header_pos : Option Nat := none
  start_time : Option Time := none
  end_time : Option Time := none
  connection_count : Option Nat := none

def ChunkInfoHeader.step (s : ChunkInfoHeaderAcc) (name value : List Nat) :
    Except Err ChunkInfoHeaderAcc :=
  if name = strBytes "ver" then
    match parse_le_u32 value with
    | .error e => .error e
    | .ok v => .ok { s with version := some v }
  else if name = strBytes "chunk_pos" then
    match parse_le_u64 value with
    | .error e => .error e
    | .ok v => .ok { s with chunk_header_pos := some v }
  else if name = strBytes "start_time" then
    match Time.fromBytes value with
    | .error e => .error e
    | .ok t => .ok { s with start_time := some t }
  else if name = strBytes "end_time" then
    match Time.fromBytes value with
    | .error e => .error e
    | .ok t => .ok { s with end_time := some t }
  else if name = strBytes "count" then
    match parse_le_u32 value with
    | .error e => .error e
    | .ok v => .ok { s with connection_count := some v }
  else if name = strBytes "op" then
    match check_op value 6 with
    | .error e => .error e
    | .ok _ => .ok s
  else .error .unexpectedField

def ChunkInfoHeader.fromBytes (buf : List Nat) : Except Err ChunkInfoHeader :=
  match parse_fields buf ChunkInfoHeader.step {} with
  | .error e => .error e
  | .ok acc =>
    match acc.version with
    | none => .error .missingField
    | some v =>
      match acc.chunk_header_pos with
      | none => .error .missingField
      | some cp =>
        match acc.start_time with
        | none => .error .missingField
        | some st =>
          match acc.end_time with
          | none => .error .missingField
          | some et =>
            match acc.connection_count with
            | none => .error .missingField
            | some cc =>
              .ok { version := v, chunk_header_pos := cp, start_time := st,
                    end_time := et, connection_count := cc }

structure ChunkInfoData where
  connection_id : Nat
  count : Nat
deriving DecidableEq

def ChunkInfoData.fromBytes (buf : List Nat) : Except Err ChunkInfoData :=
  match parse_le_u32_at buf 0 with
  | .error e => .error e
  | .ok cid =>
    match parse_le_u32_at buf 4 with
    | .error e => .error e
    | .ok cnt => .ok { connection_id := cid, count := cnt }

structure ConnectionHeader where
  connection_id : Nat
  topic : List Nat
deriving DecidableEq

structure ConnectionHeaderAcc where
  topic : Option (List Nat) := none
  connection_id : Option Nat := none

def ConnectionHeader.step (s : ConnectionHeaderAcc) (name value : List Nat) :
    Except Err ConnectionHeaderAcc :=
  if name = strBytes "topic" then .ok { s with topic := some value }
  else if name = strBytes "conn" then
    match parse_le_u32 value with
    | .error e => .error e
    | .ok v => .ok { s with connection_id := some v }
  else if name = strBytes "op" then
    match check_op value 7 with
    | .error e => .error e
    | .ok _ => .ok s
  else .error .unexpectedField

def ConnectionHeader.fromBytes (buf : List Nat) : Except Err ConnectionHeader :=
  match parse_fields buf ConnectionHeader.step {} with
  | .error e => .error e
  | .ok acc =>
    match acc.connection_id with
    | none => .error .missingField
    | some cid =>
      match acc.topic with
      | none => .error .missingField
      | some t => .ok { connection_id := cid, topic := t }

structure ConnectionData where
  connection_id : Nat
  topic : List Nat
  data_type : List Nat
  md5sum : List Nat
  message_definition : List Nat
  caller_id : Option (List Nat)
  latching : Bool
deriving DecidableEq

structure ConnectionDataAcc where
  data_type : Option (List Nat) := none
  md5sum : Option (List Nat) := none
  message_definition : Option (List Nat) := none
  caller_id : Option (List Nat) := none
  latching : Bool := false

def ConnectionData.step (s : ConnectionDataAcc) (name value : List Nat) :
    Except Err ConnectionDataAcc :=
  if name = strBytes "topic" then .ok s
  else if name = strBytes "type" then .ok { s with data_type := some value }
  else if name = strBytes "md5sum" then .ok { s with md5sum := some value }
  else if name = strBytes "message_definition" then .ok { s with message_definition := some value }
  else if name = strBytes "callerid" then .ok { s with caller_id := some value }
  else if name = strBytes "latching" then .ok { s with latching := value = strBytes "1" }
  else .error .unexpectedField

def ConnectionData.fromBytes (buf : List Nat) (connection_id : Nat) (topic : List Nat) :
    Except Err ConnectionData :=
  match parse_fields buf ConnectionData.step {} with
  | .error e => .error e
  | .ok acc =>
    match acc.data_type with
    | none => .error .missingField
    | some dt =>
      match acc.md5sum with
      | none => .error .missingField
      | some md =>
        match acc.message_definition with
        | none => .error .missingField
        | some mdef =>
          .ok { connection_id := connection_id, topic := topic, data_type := dt,
                md5sum := md, message_definition := mdef,
                caller_id := acc.caller_id, latching := acc.latching }

structure IndexDataHeader where
  version : Nat
  connection_id : Nat
  count : Nat
deriving DecidableEq

structure IndexDataHeaderAcc where
  version : Option Nat := none
  connection_id : Option Nat := none
  count : Option Nat := none

def IndexDataHeader.step (s : IndexDataHeaderAcc) (name value : List Nat) :
    Except Err IndexDataHeaderAcc :=
  if name = strBytes "ver" then
    match parse_le_u32 value with
    | .error e => .error e
    | .ok v => .ok { s with version := some v }
  else if name = strBytes "conn" then
    match parse_le_u32 value with
    | .error e => .error e
    | .ok v => .ok { s with connection_id := some v }
  else if name = strBytes "count" then
    match parse_le_u32 value with
    | .error e => .error e
    | .ok v => .ok { s with count := some v }
  else if name = strBytes "op" then
    match check_op value 4 with
    | .error e => .error e
    | .ok _ => .ok s
  else .error .unexpectedField

def IndexDataHeader.fromBytes (buf : List Nat) : Except Err IndexDataHeader :=
  match parse_fields buf IndexDataHeader.step {} with
  | .error e => .error e
  | .ok acc =>
    match acc.version with
    | none => .error .missingField
    | some v =>
      match acc.connection_id with
      | none => .error .missingField
      | some cid =>
        match acc.count with
        | none => .error .missingField
        | some cnt => .ok { version := v, connection_id := cid, count := cnt }

structure IndexData where
  conn_id : Nat
  chunk_header_pos : Nat
  time : Time
  offset : Nat
deriving DecidableEq

def IndexData.fromBytes (buf : List Nat) (chunk_header_pos conn_id : Nat) :
    Except Err IndexData :=
  match Time.fromBytes buf with
  | .error e => .error e
  | .ok t =>
    match parse_le_u32_at buf 8 with
    | .error e => .error e
    | .ok off =>
      .ok { conn_id := conn_id, chunk_header_pos := chunk_header_pos, time := t, offset := off }

structure MessageDataHeader where
  conn : Nat
  time : Time
deriving DecidableEq

structure MessageDataHeaderAcc where
  conn : Option Nat := none
  time : Option Time := none

def MessageDataHeader.step (s : MessageDataHeaderAcc) (name value : List Nat) :
    Except Err MessageDataHeaderAcc :=
  if name = strBytes "conn" then
    match parse_le_u32 value with
    | .error e => .error e
    | .ok v => .ok { s with conn := some v }
  else if name = strBytes "time" then
    match Time.fromBytes value with
    | .error e => .error e
    | .ok t => .ok { s with time := some t }
  else if name = strBytes "op" then
    match check_op value 2 with
    | .error e => .error e
    | .ok _ => .ok s
  else .error .unexpectedField

def MessageDataHeader.fromBytes (buf : List Nat) : Except Err MessageDataHeader :=
  match parse_fields buf MessageDataHeader.step {} with
  | .error e => .error e
  | .ok acc =>
    match acc.conn with
    | none => .error .missingField
    | some c =>
      match acc.time with
      | none => .error .missingField
      | some t => .ok { conn := c, time := t }

/-! ### Association-list model of BTreeMap

Lookups, one-entry-per-key inserts (last write wins, as in BTreeMap collect)
and vector-append entries (entry().or_insert(Vec).append / push).  The source
only observes these maps through lookups and entry counts, so the key order
kept by BTreeMap is not modelled. -/

def alLookup {κ β : Type} [DecidableEq κ] (k : κ) : List (κ × β) → Option β
  | [] => none
  | p :: rest => if p.1 = k then some p.2 else alLookup k rest

def alInsert {κ β : Type} [DecidableEq κ] (k : κ) (v : β) : List (κ × β) → List (κ × β)
  | [] => [(k, v)]
  | p :: rest => if p.1 = k then (k, v) :: rest else p :: alInsert k v rest

def alPush {κ β : Type} [DecidableEq κ] (k : κ) (x : β) : List (κ × List β) → List (κ × List β)
  | [] => [(k, [x])]
  | p :: rest => if p.1 = k then (p.1, p.2 ++ [x]) :: rest else p :: alPush k x rest

def alAppendList {κ β : Type} [DecidableEq κ] (k : κ) (xs : List β) :
    List (κ × List β) → List (κ × List β)
  | [] => [(k, xs)]
  | p :: rest => if p.1 = k then (p.1, p.2 ++ xs) :: rest else p :: alAppendList k xs rest

/-! ### Chunk-info and index payload decoding

data.windows(n).step_by(n) yields the complete n-byte chunks of the payload,
dropping a trailing partial chunk; flat_map over the fallible record decoder
drops failures (none can occur on full chunks). -/

def chunks8 : List Nat → List (List Nat)
  | a :: b :: c :: d :: e :: f :: g :: h :: rest =>
    [a, b, c, d, e, f, g, h] :: chunks8 rest
  | _ => []

def chunks12 : List Nat → List (List Nat)
  | a :: b :: c :: d :: e :: f :: g :: h :: i :: j :: k :: l :: rest =>
    [a, b, c, d, e, f, g, h, i, j, k, l] :: chunks12 rest
  | _ => []

/-! ### Per-record parsing steps of the walker (src/frost/src/lib.rs) -/

def parse_bag_header (headerBuf bs : List Nat) (pos : Nat) : Except Err (BagHeader × Nat) :=
  match BagHeader.fromBytes headerBuf with
  | .error e => .error e
  | .ok bh =>
    if bh.index_pos = 0 then .error .unindexedBag
    else
      match read_le_u32 bs pos with
      | .error e => .error e
      | .ok (dataLen, pos2) => .ok (bh, pos2 + dataLen)

def parse_chunk (headerBuf bs : List Nat) (pos chunk_header_pos : Nat) :
    Except Err (ChunkHeader × Nat) :=
  match read_le_u32 bs pos with
  | .error e => .error e
  | .ok (dataLen, pos2) =>
    match ChunkHeader.fromBytes headerBuf chunk_header_pos pos2 dataLen with
    | .error e => .error e
    | .ok ch => .ok (ch, pos2 + dataLen)

def parse_chunk_info (headerBuf bs : List Nat) (pos : Nat) :
    Except Err ((ChunkInfoHeader × List ChunkInfoData) × Nat) :=
  match ChunkInfoHeader.fromBytes headerBuf with
  | .error e => .error e
  | .ok cih =>
    match get_lengthed_bytes bs pos with
    | .error e => .error e
    | .ok (data, pos2) =>
      let entries := (chunks8 data).filterMap (fun b => (ChunkInfoData.fromBytes b).toOption)
      if entries.length = cih.connection_count then .ok ((cih, entries), pos2)
      else .error .chunkInfoCountMismatch

def parse_index (headerBuf bs : List Nat) (pos chunk_header_pos : Nat) :
    Except Err ((Nat × List IndexData) × Nat) :=
  match IndexDataHeader.fromBytes headerBuf with
  | .error e => .error e
  | .ok idh =>
    match get_lengthed_bytes bs pos with
    | .error e => .error e
    | .ok (data, pos2) =>
      let entries := (chunks12 data).filterMap
        (fun b => (IndexData.fromBytes b chunk_header_pos idh.connection_id).toOption)
      if entries.length = idh.count then .ok ((idh.connection_id, entries), pos2)
      else .error .indexCountMismatch

def parse_connection (headerBuf bs : List Nat) (pos : Nat) : Except Err (ConnectionData × Nat) :=
  match ConnectionHeader.fromBytes headerBuf with
  | .error e => .error e
  | .ok ch =>
    match get_lengthed_bytes bs pos with
    | .error e => .error e
    | .ok (data, pos2) =>
      match ConnectionData.fromBytes data ch.connection_id ch.topic with
      | .error e => .error e
      | .ok cd => .ok (cd, pos2)

/-! ### The record walking loop (Bag::parse_records) -/

structure ChunkMetadata where
  compression : List Nat
  uncompressed_size : Nat
  compressed_size : Nat
  chunk_header_pos : Nat
  chunk_data_pos : Nat
  start_time : Time
  end_time : Time
  connection_count : Nat
  message_counts : List (Nat × Nat)
deriving DecidableEq

structure RecState where
  bag_header : Option BagHeader := none
  chunk_headers : List ChunkHeader := []
  chunk_infos : List (ChunkInfoHeader × List ChunkInfoData) := []
  connections : List ConnectionData := []
  index_data : List (Nat × List IndexData) := []
  last_chunk_header_pos : Option Nat := none
deriving DecidableEq

def initRecState : RecState := {}

def parse_records_loop (bs : List Nat) : Nat → Nat → RecState → Except Err RecState
  | 0, _, _ => .error .fuelExhausted
  | fuel + 1, pos, st =>
    match read_le_u32 bs pos with
    | .error .eof => .ok st
    | .error e => .error e
    | .ok (headerLen, pos1) =>
      match readExact bs pos1 headerLen with
      | .error e => .error e
      | .ok (headerBuf, pos2) =>
        match read_header_op headerBuf with
        | .error e => .error e
        | .ok op =>
          match op with
          | .bagHeader =>
            match parse_bag_header headerBuf bs pos2 with
            | .error e => .error e
            | .ok (bh, pos3) =>
              parse_records_loop bs fuel pos3 { st with bag_header := some bh }
          | .chunkHeader =>
            let chp := pos2 - headerBuf.length - 4
            match parse_chunk headerBuf bs pos2 chp with
            | .error e => .error e
            | .ok (ch, pos3) =>
              parse_records_loop bs fuel pos3
                { st with chunk_headers := st.chunk_headers ++ [ch],
                          last_chunk_header_pos := some chp }
          | .indexDataHeader =>
            match st.last_chunk_header_pos with
            | none => .error .missingChunkBeforeIndex
            | some chp =>
              match parse_index headerBuf bs pos2 chp with
              | .error e => .error e
              | .ok ((cid, entries), pos3) =>
                parse_records_loop bs fuel pos3
                  { st with index_data := alAppendList cid entries st.index_data }
          | .connectionHeader =>
            match parse_connection headerBuf bs pos2 with
            | .error e => .error e
            | .ok (cd, pos3) =>
              parse_records_loop bs fuel pos3
                { st with connections := st.connections ++ [cd] }
          | .chunkInfoHeader =>
            match parse_chunk_info headerBuf bs pos2 with
            | .error e => .error e
            | .ok (ci, pos3) =>
              parse_records_loop bs fuel pos3
                { st with chunk_infos := st.chunk_infos ++ [ci] }
          | .messageData => .error .unexpectedTopLevelOp

def mkChunkMetadata (ch : ChunkHeader) (ci : ChunkInfoHeader × List ChunkInfoData) :
    ChunkMetadata :=
  { compression := ch.compression, uncompressed_size := ch.uncompressed_size,
    compressed_size := ch.compressed_size, chunk_header_pos := ch.chunk_header_pos,
    chunk_data_pos := ch.chunk_data_pos, start_time := ci.1.start_time,
    end_time := ci.1.end_time, connection_count := ci.1.connection_count,
    message_counts :=
      ci.2.foldl (fun acc d => alInsert d.connection_id d.count acc) [] }

/-- The join of chunk headers with chunk-info records on equal
chunk_header_pos: a header whose position matches no info record contributes
nothing. -/
def join_chunks (chunk_headers : List ChunkHeader)
    (chunk_infos : List (ChunkInfoHeader × List ChunkInfoData)) : List ChunkMetadata :=
  chunk_headers.flatMap (fun ch =>
    ((chunk_infos.find? (fun ci => ci.1.chunk_header_pos = ch.chunk_header_pos)).map
      (fun ci => mkChunkMetadata ch ci)).toList)

/-- The verification and join steps at the end of Bag::parse_records: the
three count checks, then the join of chunk headers with chunk-info records,
then collection into position-keyed and id-keyed maps. -/
def parse_records_finish (st : RecState) :
    Except Err (List (Nat × ChunkMetadata) × List (Nat × ConnectionData) ×
                List (Nat × List IndexData)) :=
  match st.bag_header with
  | none => .error .missingBagHeader
  | some bh =>
    if bh.chunk_count ≠ st.chunk_headers.length then .error .chunkCountMismatch
    else if bh.chunk_count ≠ st.chunk_infos.length then .error .chunkInfoTotalMismatch
    else if bh.conn_count ≠ st.connections.length then .error .connCountMismatch
    else
      .ok ((join_chunks st.chunk_headers st.chunk_infos).foldl
             (fun acc md => alInsert md.chunk_header_pos md acc) [],
           st.connections.foldl (fun acc cd => alInsert cd.connection_id cd acc) [],
           st.index_data)

def parse_records (bs : List Nat) (pos : Nat) :
    Except Err (List (Nat × ChunkMetadata) × List (Nat × ConnectionData) ×
                List (Nat × List IndexData)) :=
  match parse_records_loop bs (bs.length + 1) pos initRecState with
  | .error e => .error e
  | .ok st => parse_records_finish st

/-! ### Opening a bag -/

def rosbagMagic : List Nat := strBytes "#ROSBAG V2.0\n"

/-- Bag::version_check: read exactly 13 bytes and compare with the magic. -/
def version_check (bs : List Nat) (pos : Nat) : Except Err (String × Nat) :=
  match readExact bs pos 13 with
  | .error e => .error e
  | .ok (buf, pos2) => if buf = rosbagMagic then .ok ("2.0", pos2) else .error .notARosbag

structure Bag where
  version : String
  chunk_metadata : List (Nat × ChunkMetadata)
  connection_data : List (Nat × ConnectionData)
  index_data : List (Nat × List IndexData)
deriving DecidableEq

instance : Inhabited Bag := ⟨{ version := "", chunk_metadata := [],
                               connection_data := [], index_data := [] }⟩

/-- Bag::from over an in-memory byte stream: version check, then the record
walk.  (Bag::from additionally precomputes topic_to_connection_ids from
connection_data; here that map is derived on demand, see
topic_to_connection_ids below, which is the same fold.) -/
def bag_from (bs : List Nat) : Except Err Bag :=
  match version_check bs 0 with
  | .error e => .error e
  | .ok (ver, pos) =>
    match parse_records bs pos with
    | .error e => .error e
    | .ok (cm, cd, idx) =>
      .ok { version := ver, chunk_metadata := cm, connection_data := cd, index_data := idx }

/-! ### Derived connection-id maps -/

def groupIdsBy (f : ConnectionData → List Nat) (cd : List (Nat × ConnectionData)) :
    List (List Nat × List Nat) :=
  cd.foldl (fun acc p => alPush (f p.2) p.2.connection_id acc) []

/-- The fold of Bag::from building topic -> connection ids from the
connection-data values. -/
def topic_to_connection_ids (cd : List (Nat × ConnectionData)) : List (List Nat × List Nat) :=
  groupIdsBy (fun c => c.topic) cd

/-- Modelled from the spec: type_to_connection_ids is called by BagIter::new
but its definition is not under src/; section 4.5 of the spec defines it as
the map from each type string to the connection ids carrying it, derived
from connection_data exactly like topic_to_connection_ids. -/
def type_to_connection_ids (cd : List (Nat × ConnectionData)) : List (List Nat × List Nat) :=
  groupIdsBy (fun c => c.data_type) cd

/-! ### Query (src/frost/src/util/query.rs) -/

structure Query where
  topics : Option (List (List Nat)) := none
  types : Option (List (List Nat)) := none
  start_time : Option Time := none
  end_time : Option Time := none

def Query.all : Query := {}

def Query.with_topics (q : Query) (ts : List (List Nat)) : Query := { q with topics := some ts }

def Query.with_types (q : Query) (tys : List (List Nat)) : Query := { q with types := some tys }

def Query.with_start_time (q : Query) (t : Time) : Query := { q with start_time := some t }

def Query.with_end_time (q : Query) (t : Time) : Query := { q with end_time := some t }

/-- The time-window filter closure of BagIter::new: drop an entry when its
time is before start_time or after end_time. -/
def time_window (q : Query) (e : IndexData) : Bool :=
  (match q.start_time with
   | some st => !(Time.ltB e.time st)
   | none => true)
  &&
  (match q.end_time with
   | some et => !(Time.ltB et e.time)
   | none => true)

/-- ids_from_topics of BagIter::new.  The ids are consumed as a HashSet, so
only membership in this list is meaningful downstream. -/
def ids_from_topics (bag : Bag) (q : Query) : List Nat :=
  match q.topics with
  | some ts =>
    ts.flatMap (fun t => (alLookup t (topic_to_connection_ids bag.connection_data)).getD [])
  | none => (topic_to_connection_ids bag.connection_data).flatMap (fun p => p.2)

/-- ids_from_types of BagIter::new. -/
def ids_from_types (bag : Bag) (q : Query) : List Nat :=
  match q.types with
  | some tys =>
    tys.flatMap (fun t => (alLookup t (type_to_connection_ids bag.connection_data)).getD [])
  | none => (type_to_connection_ids bag.connection_data).flatMap (fun p => p.2)

/-- The intersected id set of BagIter::new, enumerated without duplicates. -/
def selected_ids (bag : Bag) (q : Query) : List Nat :=
  ((ids_from_topics bag q).filter (fun id => decide (id ∈ ids_from_types bag q))).dedup

/-- An iteration order of the HashSet of selected connection ids.  HashSet
iteration order is unspecified (and differs between two sets built in the
same process), so the iterator construction is parametrised by any
duplicate-free enumeration of the selected ids. -/
def ValidOrder (bag : Bag) (q : Query) (order : List Nat) : Prop :=
  order.Perm (selected_ids bag q)

/-- The flat_map of BagIter::new over the selected ids: each id is looked up
in index_data with unwrap.  none models the panic of the unwrap for an id
with no index entry. -/
def lookup_index_all (idx : List (Nat × List IndexData)) : List Nat →
    Option (List (List IndexData))
  | [] => some []
  | id :: rest =>
    match alLookup id idx with
    | none => none
    | some li =>
      match lookup_index_all idx rest with
      | none => none
      | some ls => some (li :: ls)

/-- The comparator of index_data.sort_by: a.time.cmp(b.time), as a relation. -/
def entryLe (a b : IndexData) : Prop := a.time.toNanos ≤ b.time.toNanos

instance : DecidableRel entryLe := fun a b => Nat.decLe a.time.toNanos b.time.toNanos

instance : IsTotal IndexData entryLe := ⟨fun a b => Nat.le_total a.time.toNanos b.time.toNanos⟩

instance : IsTrans IndexData entryLe := ⟨fun _ _ _ hab hbc => Nat.le_trans hab hbc⟩

/-- The strict refinement of the sort comparator, used to state uniqueness
of the sorted entry list when timestamps are pairwise distinct. -/
def entryLt (a b : IndexData) : Prop := a.time.toNanos < b.time.toNanos

instance : IsAntisymm IndexData entryLt :=
  ⟨fun _ _ h1 h2 => absurd h2 (Nat.lt_asymm h1)⟩

/-- BagIter::new: collect the index entries of every selected connection,
apply the time-window filter, and stable-sort by time (Vec::sort_by is a
stable sort; insertionSort realises the same stable-sort function).  none
models the panic of the index_data lookup unwrap. -/
def BagIter.new (bag : Bag) (q : Query) (order : List Nat) : Option (List IndexData) :=
  match lookup_index_all bag.index_data order with
  | none => none
  | some ls => some (List.insertionSort entryLe ((ls.flatten).filter (time_window q)))

/-! ### The decompressed bag and the iterator body -/

/-- Modelled from the spec: the DecompressedBag struct consumed by
BagIter (section 4.6, eager mode) is not under src/; it owns the parsed
metadata and the uncompressed chunk bodies keyed by chunk_header_pos. -/
structure DecompressedBag where
  metadata : Bag
  chunk_bytes : List (Nat × List Nat)
deriving DecidableEq

instance : Inhabited DecompressedBag := ⟨{ metadata := default, chunk_bytes := [] }⟩

structure MessageView where
  topic : List Nat
  chunk_loc : Nat
  start_index : Nat
  end_index : Nat
deriving DecidableEq

/-- Outcome of one BagIter::next step on one index entry: a yielded view, a
silent end of iteration (the question-mark on the chunk_bytes lookup), or a
panic (the unwraps and the expect on the in-chunk message record). -/
inductive NextRes where
  | yielded (v : MessageView)
  | stopped
  | panicked
deriving DecidableEq

/-- The body of BagIter::next for the entry under the cursor. -/
def next_entry (dbag : DecompressedBag) (e : IndexData) : NextRes :=
  match alLookup e.conn_id dbag.metadata.connection_data with
  | none => .panicked
  | some cd =>
    match alLookup e.chunk_header_pos dbag.chunk_bytes with
    | none => .stopped
    | some chunkBytes =>
      match parse_le_u32_at chunkBytes e.offset with
      | .error _ => .panicked
      | .ok headerLen =>
        let headerStart := e.offset + 4
        let headerEnd := headerStart + headerLen
        if chunkBytes.length < headerEnd then .panicked
        else
          match MessageDataHeader.fromBytes ((chunkBytes.drop headerStart).take headerLen) with
          | .error _ => .panicked
          | .ok _ =>
            match parse_le_u32_at chunkBytes headerEnd with
            | .error _ => .panicked
            | .ok dataLen =>
              .yielded { topic := cd.topic, chunk_loc := e.chunk_header_pos,
                         start_index := headerEnd, end_index := headerEnd + dataLen + 4 }

/-- Driving the iterator to exhaustion: the cursor walks the sorted entry
list; iteration ends at the end of the list, at a missing chunk (stopped) or
at a panic.  Each yielded view is paired with the entry it came from. -/
def run_iter (dbag : DecompressedBag) : List IndexData → List (IndexData × MessageView)
  | [] => []
  | e :: rest =>
    match next_entry dbag e with
    | .yielded v => (e, v) :: run_iter dbag rest
    | _ => []

/-- MessageView::raw_bytes: the slice of the owning chunk body. -/
def raw_bytes (dbag : DecompressedBag) (v : MessageView) : Option (List Nat) :=
  (alLookup v.chunk_loc dbag.chunk_bytes).map
    (fun cb => (cb.drop v.start_index).take (v.end_index - v.start_index))

/-- The observable stream of one full iteration: (topic, time, raw bytes). -/
def yield_triples (dbag : DecompressedBag) (l : List IndexData) :
    List (List Nat × Time × Option (List Nat)) :=
  (run_iter dbag l).map (fun p => (p.2.topic, p.1.time, raw_bytes dbag p.2))

/-! ### Chunk decompression and eager loading -/

/-- Modelled from the spec: the chunk body decoder (section 4.6) is not
under src/.  "none" copies the raw body; "lz4" strips an 11-byte framing
preamble and an 8-byte trailer, hands the remainder to the external raw-block
LZ4 decoder, and requires exactly uncompressed_size output bytes, anything
else being a Decompression error; any other compression string is an error.
The external decoder is a parameter. -/
def decompress_chunk (lz4_decompress : List Nat → Option (List Nat))
    (compression raw : List Nat) (uncompressed_size : Nat) : Except Err (List Nat) :=
  if compression = strBytes "none" then .ok raw
  else if compression = strBytes "lz4" then
    match lz4_decompress ((raw.drop 11).take ((raw.drop 11).length - 8)) with
    | none => .error .decompressionFailed
    | some out =>
      if out.length = uncompressed_size then .ok out else .error .decompressionFailed
  else .error .unsupportedCompression

/-- Modelled from the spec: eager loading (section 4.6) reads, for each
chunk of chunk_metadata, the compressed_size bytes at chunk_data_pos and
decompresses them, caching the body keyed by chunk_header_pos. -/
def populate_all_chunks (lz4_decompress : List Nat → Option (List Nat)) (bs : List Nat) :
    List (Nat × ChunkMetadata) → Except Err (List (Nat × List Nat))
  | [] => .ok []
  | (pos, md) :: rest =>
    match readExact bs md.chunk_data_pos md.compressed_size with
    | .error e => .error e
    | .ok (raw, _) =>
      match decompress_chunk lz4_decompress md.compression raw md.uncompressed_size with
      | .error e => .error e
      | .ok body =>
        match populate_all_chunks lz4_decompress bs rest with
        | .error e => .error e
        | .ok rest2 => .ok ((pos, body) :: rest2)

/-- Modelled from the spec: DecompressedBag::from_bytes opens the bag and
eagerly loads every chunk body. -/
def DecompressedBag.from_bytes (lz4_decompress : List Nat → Option (List Nat))
    (bs : List Nat) : Except Err DecompressedBag :=
  match bag_from bs with
  | .error e => .error e
  | .ok bag =>
    match populate_all_chunks lz4_decompress bs bag.chunk_metadata with
    | .error e => .error e
    | .ok cbs => .ok { metadata := bag, chunk_bytes := cbs }

/-! ### Well-formedness facts that opening establishes

The bag maps produced by parse_records are keyed by the connection id and
chunk position stored in their values; the theorems about arbitrary opened
bags take these as hypotheses. -/

def ConnWF (bag : Bag) : Prop :=
  (∀ p ∈ bag.connection_data, p.2.connection_id = p.1) ∧
    (bag.connection_data.map (fun p => p.1)).Nodup

def IndexWF (bag : Bag) : Prop :=
  ∀ p ∈ bag.index_data, ∀ e ∈ p.2, e.conn_id = p.1

instance (bag : Bag) : Decidable (ConnWF bag) := by
  unfold ConnWF; infer_instance

instance (bag : Bag) : Decidable (IndexWF bag) := by
  unfold IndexWF; infer_instance

instance (bag : Bag) (q : Query) (order : List Nat) : Decidable (ValidOrder bag q order) := by
  unfold ValidOrder; exact List.decidablePerm order (selected_ids bag q)

instance {ε α : Type} [DecidableEq ε] [DecidableEq α] : DecidableEq (Except ε α) := fun a b =>
  match a, b with
  | .ok x, .ok y =>
    if h : x = y then isTrue (by rw [h]) else isFalse (fun hh => by cases hh; exact h rfl)
  | .error x, .error y =>
    if h : x = y then isTrue (by rw [h]) else isFalse (fun hh => by cases hh; exact h rfl)
  | .ok _, .error _ => isFalse (fun hh => by cases hh)
  | .error _, .ok _ => isFalse (fun hh => by cases hh)

/-- Bool form of: next_entry yields a view (no stop, no panic). -/
def isYielded : NextRes → Bool
  | .yielded _ => true
  | _ => false

/-! ### Concrete bag images

Byte-level serialization helpers used to build the concrete bag files of the
witnesses and counterexamples (the inverse direction of the record grammar of
section 6 of the specification: little-endian lengths, name=value fields,
length-prefixed header and data). -/

def u32le (n : Nat) : List Nat :=
  [n % 256, n / 256 % 256, n / 65536 % 256, n / 16777216 % 256]

def u64le (n : Nat) : List Nat := u32le (n % 4294967296) ++ u32le (n / 4294967296)

def mkField (name : String) (value : List Nat) : List Nat :=
  u32le ((strBytes name).length + 1 + value.length) ++ strBytes name ++ [61] ++ value

def mkRecord (headerFields : List (List Nat)) (data : List Nat) : List Nat :=
  u32le headerFields.flatten.length ++ headerFields.flatten ++ u32le data.length ++ data

def bagOfExcept : Except Err Bag → Bag
  | .ok b => b
  | .error _ => default

def dbagOfExcept : Except Err DecompressedBag → DecompressedBag
  | .ok b => b
  | .error _ => default

instance : Inhabited RecState := ⟨{}⟩

def stOfExcept : Except Err RecState → RecState
  | .ok st => st
  | .error _ => default

/-- An LZ4 decoder stub for fixtures whose chunks are all uncompressed. -/
def noLz4 : List Nat → Option (List Nat) := fun _ => none

/-- Fixture F2: a well-formed bag with two connections (topics /a and /b,
both of type t), one uncompressed chunk holding one message per connection,
index entries with EQUAL timestamps, and a chunk-info record whose position
matches the chunk header. -/

def f2time : List Nat := u32le 10 ++ u32le 0

def f2msg0 : List Nat :=
  mkRecord [mkField "conn" (u32le 0), mkField "time" f2time, mkField "op" [2]] [65]

def f2msg1 : List Nat :=
  mkRecord [mkField "conn" (u32le 1), mkField "time" f2time, mkField "op" [2]] [66]

def f2body : List Nat := f2msg0 ++ f2msg1

def f2bh : List Nat :=
  mkRecord [mkField "index_pos" (u64le 1), mkField "conn_count" (u32le 2),
            mkField "chunk_count" (u32le 1), mkField "op" [3]] []

def mkConnRecord (id : Nat) (topic ty : String) : List Nat :=
  mkRecord [mkField "topic" (strBytes topic), mkField "conn" (u32le id), mkField "op" [7]]
    (mkField "topic" (strBytes topic) ++ mkField "type" (strBytes ty) ++
     mkField "md5sum" (strBytes "m") ++ mkField "message_definition" [])

def f2conn0 : List Nat := mkConnRecord 0 "/a" "t"

def f2conn1 : List Nat := mkConnRecord 1 "/b" "t"

def f2chunk : List Nat :=
  mkRecord [mkField "compression" (strBytes "none"), mkField "size" (u32le f2body.length),
            mkField "op" [5]] f2body

def f2idx0 : List Nat :=
  mkRecord [mkField "ver" (u32le 1), mkField "conn" (u32le 0), mkField "count" (u32le 1),
            mkField "op" [4]] (f2time ++ u32le 0)

def f2idx1 : List Nat :=
  mkRecord [mkField "ver" (u32le 1), mkField "conn" (u32le 1), mkField "count" (u32le 1),
            mkField "op" [4]] (f2time ++ u32le f2msg0.length)

/-- File position of the chunk header record of fixture F2. -/
def f2chp : Nat := 13 + f2bh.length + f2conn0.length + f2conn1.length

def f2info : List Nat :=
  mkRecord [mkField "ver" (u32le 1), mkField "chunk_pos" (u64le f2chp),
            mkField "start_time" f2time, mkField "end_time" f2time,
            mkField "count" (u32le 2), mkField "op" [6]]
    (u32le 0 ++ u32le 1 ++ u32le 1 ++ u32le 1)

def f2bytes : List Nat :=
  rosbagMagic ++ f2bh ++ f2conn0 ++ f2conn1 ++ f2chunk ++ f2idx0 ++ f2idx1 ++ f2info

def f2bag : Bag := bagOfExcept (bag_from f2bytes)

def f2dbag : DecompressedBag := dbagOfExcept (DecompressedBag.from_bytes noLz4 f2bytes)

/-- Fixture F3: one connection, one uncompressed chunk with one indexed
message, but the chunk-info record carries chunk_pos 0, which matches no
chunk header.  Counts still balance, so the bag opens successfully; the join
drops the chunk, so no chunk body is ever loaded. -/

def f3bh : List Nat :=
  mkRecord [mkField "index_pos" (u64le 1), mkField "conn_count" (u32le 1),
            mkField "chunk_count" (u32le 1), mkField "op" [3]] []

def f3conn0 : List Nat := mkConnRecord 0 "/a" "t"

def f3chunk : List Nat :=
  mkRecord [mkField "compression" (strBytes "none"), mkField "size" (u32le f2msg0.length),
            mkField "op" [5]] f2msg0

def f3idx0 : List Nat :=
  mkRecord [mkField "ver" (u32le 1), mkField "conn" (u32le 0), mkField "count" (u32le 1),
            mkField "op" [4]] (f2time ++ u32le 0)

def f3info : List Nat :=
  mkRecord [mkField "ver" (u32le 1), mkField "chunk_pos" (u64le 0),
            mkField "start_time" f2time, mkField "end_time" f2time,
            mkField "count" (u32le 0), mkField "op" [6]] []

def f3bytes : List Nat := rosbagMagic ++ f3bh ++ f3conn0 ++ f3chunk ++ f3idx0 ++ f3info

def f3bag : Bag := bagOfExcept (bag_from f3bytes)

def f3dbag : DecompressedBag := dbagOfExcept (DecompressedBag.from_bytes noLz4 f3bytes)

/-- Fixture F4: the bag header declares one chunk and two connections; the
file holds one chunk header, one chunk-info record whose chunk_pos matches
nothing, and two connection records sharing connection id 5.  All three count
checks pass, yet the final position-keyed chunk table is empty and the final
id-keyed connection table has a single entry. -/

def f4bh : List Nat :=
  mkRecord [mkField "index_pos" (u64le 1), mkField "conn_count" (u32le 2),
            mkField "chunk_count" (u32le 1), mkField "op" [3]] []

def f4connA : List Nat := mkConnRecord 5 "/a" "t"

def f4connB : List Nat := mkConnRecord 5 "/b" "t"

def f4chunk : List Nat :=
  mkRecord [mkField "compression" (strBytes "none"), mkField "size" (u32le 0),
            mkField "op" [5]] []

def f4info : List Nat :=
  mkRecord [mkField "ver" (u32le 1), mkField "chunk_pos" (u64le 0),
            mkField "start_time" f2time, mkField "end_time" f2time,
            mkField "count" (u32le 0), mkField "op" [6]] []

def f4bytes : List Nat := rosbagMagic ++ f4bh ++ f4connA ++ f4connB ++ f4chunk ++ f4info

def f4bag : Bag := bagOfExcept (bag_from f4bytes)

def f4st : RecState := stOfExcept (parse_records_loop f4bytes (f4bytes.length + 1) 13 initRecState)

/-! ### Abstract witness bag

A small well-formed decompressed bag used to instantiate the hypotheses of
the universal theorems: one connection, one chunk body holding one valid
message record at offset 0, one index entry. -/

def wconn0 : ConnectionData :=
  { connection_id := 0, topic := strBytes "/a", data_type := strBytes "t",
    md5sum := [], message_definition := [], caller_id := none, latching := false }

def wmsgBytes : List Nat :=
  mkRecord [mkField "conn" (u32le 0), mkField "time" (u32le 5 ++ u32le 0), mkField "op" [2]] [9]

def wEntry : IndexData :=
  { conn_id := 0, chunk_header_pos := 100, time := { secs := 5, nsecs := 0 }, offset := 0 }

def wbag : Bag :=
  { version := "2.0", chunk_metadata := [], connection_data := [(0, wconn0)],
    index_data := [(0, [wEntry])] }

def wdbag : DecompressedBag := { metadata := wbag, chunk_bytes := [(100, wmsgBytes)] }

def wquery : Query :=
  { topics := some [strBytes "/a"], types := some [strBytes "t"],
    start_time := some { secs := 5, nsecs := 0 }, end_time := some { secs := 6, nsecs := 0 } }

def wconn7 : ConnectionData := { wconn0 with connection_id := 7 }

/-- A bag recording a connection (id 7) that has no entry in index_data. -/
def wbag9 : Bag :=
  { version := "2.0", chunk_metadata := [], connection_data := [(7, wconn7)],
    index_data := [] }

/-- The query of the BagIter panic witness: select exactly the topic of a
given connection. -/
def topicQuery (cd : ConnectionData) : Query := { topics := some [cd.topic] }

/-- A query naming a topic that belongs to no connection of wbag. -/
def wquery10 : Query := { topics := some [strBytes "/zzz"] }

/-- A raw lz4 chunk body for the decompression witness: 11 preamble bytes
plus 8 trailer bytes around an empty block. -/
def c5raw : List Nat := List.replicate 19 0

/-! ## Lemmas about the association-list maps -/

theorem alLookup_mem {κ β : Type} [DecidableEq κ] {k : κ} {v : β} :
    ∀ {m : List (κ × β)}, alLookup k m = some v → (k, v) ∈ m := by
  intro m
  induction m with
  | nil => intro h; simp [alLookup] at h
  | cons p rest ih =>
    obtain ⟨pk, pv⟩ := p
    intro h
    by_cases hk : pk = k
    · subst hk
      simp [alLookup] at h
      rw [h]
      exact List.mem_cons_self _ _
    · simp [alLookup, hk] at h
      exact List.mem_cons_of_mem _ (ih h)

theorem alLookup_of_mem_nodup {κ β : Type} [DecidableEq κ] {k : κ} {v : β} :
    ∀ {m : List (κ × β)}, (k, v) ∈ m → (m.map Prod.fst).Nodup → alLookup k m = some v := by
  intro m
  induction m with
  | nil => intro h; simp at h
  | cons p rest ih =>
    intro hmem hnd
    rcases List.mem_cons.mp hmem with heq | htail
    · rw [← heq]
      simp [alLookup]
    · have hk : p.1 ≠ k := by
        intro hk
        have : k ∈ rest.map Prod.fst := by
          exact List.mem_map.mpr ⟨(k, v), htail, rfl⟩
        rw [List.map_cons] at hnd
        have := (List.nodup_cons.mp hnd).1
        rw [hk] at this
        exact this ‹k ∈ rest.map Prod.fst›
      have hnd2 : (rest.map Prod.fst).Nodup := by
        rw [List.map_cons] at hnd
        exact (List.nodup_cons.mp hnd).2
      simp [alLookup, hk]
      exact ih htail hnd2

theorem alLookup_alPush_self {κ : Type} [DecidableEq κ] (k : κ) (x : Nat) :
    ∀ (m : List (κ × List Nat)),
      alLookup k (alPush k x m) = some ((alLookup k m).getD [] ++ [x]) := by
  intro m
  induction m with
  | nil => simp [alPush, alLookup]
  | cons p rest ih =>
    obtain ⟨pk, pv⟩ := p
    by_cases hp : pk = k
    · subst hp
      simp [alPush, alLookup]
    · simp [alPush, alLookup, hp, ih]

theorem alLookup_alPush_ne {κ : Type} [DecidableEq κ] {k t : κ} (x : Nat) (hne : t ≠ k) :
    ∀ (m : List (κ × List Nat)), alLookup t (alPush k x m) = alLookup t m := by
  intro m
  induction m with
  | nil =>
    have h2 : ¬(k = t) := fun hh => hne hh.symm
    simp [alPush, alLookup, h2]
  | cons p rest ih =>
    obtain ⟨pk, pv⟩ := p
    by_cases hp : pk = k
    · have hpt : ¬(pk = t) := fun hh => hne (hh.symm.trans hp)
      have hkt : ¬(k = t) := fun hh => hne hh.symm
      simp [alPush, alLookup, hp, hpt, hkt]
    · by_cases hpt : pk = t
      · simp [alPush, alLookup, hp, hpt, hne]
      · simp [alPush, alLookup, hp, hpt, ih]

theorem alPush_lookup_getD {κ : Type} [DecidableEq κ] (k t : κ) (x : Nat)
    (m : List (κ × List Nat)) :
    (alLookup t (alPush k x m)).getD [] =
      if t = k then (alLookup t m).getD [] ++ [x] else (alLookup t m).getD [] := by
  by_cases h : t = k
  · subst h
    simp [alLookup_alPush_self]
  · simp [alLookup_alPush_ne x h, h]

theorem mem_alPush_values {κ : Type} [DecidableEq κ] (k : κ) (x y : Nat) :
    ∀ (m : List (κ × List Nat)),
      (y ∈ (alPush k x m).flatMap (fun p => p.2) ↔ y = x ∨ y ∈ m.flatMap (fun p => p.2)) := by
  intro m
  induction m with
  | nil => simp [alPush]
  | cons p rest ih =>
    obtain ⟨pk, pv⟩ := p
    by_cases hp : pk = k
    · subst hp
      simp [alPush]
      tauto
    · simp [alPush, hp, ih]
      tauto

/-! ## Lemmas about the derived connection-id maps -/

theorem groupIdsBy_lookup_aux (f : ConnectionData → List Nat) (t : List Nat) :
    ∀ (l : List (Nat × ConnectionData)) (acc : List (List Nat × List Nat)),
      (alLookup t (l.foldl (fun acc p => alPush (f p.2) p.2.connection_id acc) acc)).getD [] =
        (alLookup t acc).getD [] ++
          (l.filter (fun p => decide (f p.2 = t))).map (fun p => p.2.connection_id) := by
  intro l
  induction l with
  | nil => intro acc; simp
  | cons a l ih =>
    intro acc
    rw [List.foldl_cons, ih, alPush_lookup_getD]
    by_cases h : f a.2 = t
    · have h2 : t = f a.2 := h.symm
      rw [if_pos h2, List.filter_cons, if_pos (by simp [h]), List.map_cons, List.append_assoc]
      rfl
    · have h2 : ¬(t = f a.2) := fun hh => h hh.symm
      rw [if_neg h2, List.filter_cons, if_neg (by simp [h])]

theorem mem_groupIdsBy (f : ConnectionData → List Nat) (t : List Nat) (id : Nat)
    (cd : List (Nat × ConnectionData)) :
    id ∈ (alLookup t (groupIdsBy f cd)).getD [] ↔
      ∃ p ∈ cd, f p.2 = t ∧ p.2.connection_id = id := by
  unfold groupIdsBy
  rw [groupIdsBy_lookup_aux]
  simp [alLookup]
  constructor
  · rintro ⟨a, b, ⟨hmem, hft⟩, hid⟩
    exact ⟨a, b, hmem, hft, hid⟩
  · rintro ⟨a, b, hmem, hft, hid⟩
    exact ⟨a, b, ⟨hmem, hft⟩, hid⟩

theorem mem_groupIdsBy_values_aux (f : ConnectionData → List Nat) (id : Nat) :
    ∀ (l : List (Nat × ConnectionData)) (acc : List (List Nat × List Nat)),
      (id ∈ (l.foldl (fun acc p => alPush (f p.2) p.2.connection_id acc) acc).flatMap
          (fun p => p.2) ↔
        id ∈ acc.flatMap (fun p => p.2) ∨ ∃ p ∈ l, p.2.connection_id = id) := by
  intro l
  induction l with
  | nil => intro acc; simp
  | cons a l ih =>
    intro acc
    rw [List.foldl_cons, ih, mem_alPush_values]
    constructor
    · rintro ((h | h) | ⟨p, hp, hid⟩)
      · exact Or.inr ⟨a, List.mem_cons_self a l, h.symm⟩
      · exact Or.inl h
      · exact Or.inr ⟨p, List.mem_cons_of_mem _ hp, hid⟩
    · rintro (h | ⟨p, hp, hid⟩)
      · exact Or.inl (Or.inr h)
      · rcases List.mem_cons.mp hp with heq | htail
        · subst heq
          exact Or.inl (Or.inl hid.symm)
        · exact Or.inr ⟨p, htail, hid⟩

theorem mem_groupIdsBy_values (f : ConnectionData → List Nat) (id : Nat)
    (cd : List (Nat × ConnectionData)) :
    id ∈ (groupIdsBy f cd).flatMap (fun p => p.2) ↔ ∃ p ∈ cd, p.2.connection_id = id := by
  unfold groupIdsBy
  rw [mem_groupIdsBy_values_aux]
  simp

/-! ## Lemmas about the id selection of BagIter::new -/

theorem mem_ids_from_topics_some {bag : Bag} {q : Query} {ts : List (List Nat)} {id : Nat}
    (hq : q.topics = some ts) :
    id ∈ ids_from_topics bag q ↔
      ∃ t ∈ ts, ∃ p ∈ bag.connection_data, p.2.topic = t ∧ p.2.connection_id = id := by
  unfold ids_from_topics
  rw [hq]
  simp only [List.mem_flatMap]
  constructor
  · rintro ⟨t, ht, hmem⟩
    rcases (mem_groupIdsBy (fun c => c.topic) t id bag.connection_data).mp hmem with
      ⟨p, hp, hft, hid⟩
    exact ⟨t, ht, p, hp, hft, hid⟩
  · rintro ⟨t, ht, p, hp, hft, hid⟩
    exact ⟨t, ht, (mem_groupIdsBy (fun c => c.topic) t id bag.connection_data).mpr
      ⟨p, hp, hft, hid⟩⟩

theorem mem_ids_from_topics_none {bag : Bag} {q : Query} {id : Nat}
    (hq : q.topics = none) :
    id ∈ ids_from_topics bag q ↔ ∃ p ∈ bag.connection_data, p.2.connection_id = id := by
  unfold ids_from_topics
  rw [hq]
  exact mem_groupIdsBy_values (fun c => c.topic) id bag.connection_data

theorem mem_ids_from_types_some {bag : Bag} {q : Query} {tys : List (List Nat)} {id : Nat}
    (hq : q.types = some tys) :
    id ∈ ids_from_types bag q ↔
      ∃ t ∈ tys, ∃ p ∈ bag.connection_data, p.2.data_type = t ∧ p.2.connection_id = id := by
  unfold ids_from_types
  rw [hq]
  simp only [List.mem_flatMap]
  constructor
  · rintro ⟨t, ht, hmem⟩
    rcases (mem_groupIdsBy (fun c => c.data_type) t id bag.connection_data).mp hmem with
      ⟨p, hp, hft, hid⟩
    exact ⟨t, ht, p, hp, hft, hid⟩
  · rintro ⟨t, ht, p, hp, hft, hid⟩
    exact ⟨t, ht, (mem_groupIdsBy (fun c => c.data_type) t id bag.connection_data).mpr
      ⟨p, hp, hft, hid⟩⟩

theorem mem_ids_from_types_none {bag : Bag} {q : Query} {id : Nat}
    (hq : q.types = none) :
    id ∈ ids_from_types bag q ↔ ∃ p ∈ bag.connection_data, p.2.connection_id = id := by
  unfold ids_from_types
  rw [hq]
  exact mem_groupIdsBy_values (fun c => c.data_type) id bag.connection_data

theorem mem_ids_from_topics_conn {bag : Bag} {q : Query} {id : Nat}
    (h : id ∈ ids_from_topics bag q) :
    ∃ p ∈ bag.connection_data, p.2.connection_id = id := by
  cases hq : q.topics with
  | none =>
    exact (mem_ids_from_topics_none hq).mp h
  | some ts =>
    rcases (mem_ids_from_topics_some hq).mp h with ⟨t, _, p, hp, _, hid⟩
    exact ⟨p, hp, hid⟩

theorem mem_selected_ids {bag : Bag} {q : Query} {id : Nat} :
    id ∈ selected_ids bag q ↔ id ∈ ids_from_topics bag q ∧ id ∈ ids_from_types bag q := by
  unfold selected_ids
  rw [List.mem_dedup, List.mem_filter]
  simp

/-! ## Lemmas about the index lookups of BagIter::new -/

theorem lookup_index_all_isSome {idx : List (Nat × List IndexData)} :
    ∀ {order : List Nat}, (∀ id ∈ order, (alLookup id idx).isSome = true) →
      (lookup_index_all idx order).isSome = true := by
  intro order
  induction order with
  | nil => intro _; simp [lookup_index_all]
  | cons id rest ih =>
    intro h
    have h1 := h id (List.mem_cons_self _ _)
    cases hl : alLookup id idx with
    | none => rw [hl] at h1; simp at h1
    | some li =>
      have h2 := ih (fun x hx => h x (List.mem_cons_of_mem _ hx))
      cases hr : lookup_index_all idx rest with
      | none => rw [hr] at h2; simp at h2
      | some ls => simp [lookup_index_all, hl, hr]

theorem lookup_index_all_none {idx : List (Nat × List IndexData)} {id : Nat} :
    ∀ {order : List Nat}, id ∈ order → alLookup id idx = none →
      lookup_index_all idx order = none := by
  intro order
  induction order with
  | nil => intro h; simp at h
  | cons a rest ih =>
    intro hmem hnone
    rcases List.mem_cons.mp hmem with heq | htail
    · subst heq
      simp [lookup_index_all, hnone]
    · cases hl : alLookup a idx with
      | none => simp [lookup_index_all, hl]
      | some li => simp [lookup_index_all, hl, ih htail hnone]

theorem lookup_index_all_flatten {idx : List (Nat × List IndexData)} :
    ∀ {order : List Nat} {ls : List (List IndexData)},
      lookup_index_all idx order = some ls →
      ls.flatten = order.flatMap (fun id => (alLookup id idx).getD []) := by
  intro order
  induction order with
  | nil => intro ls h; simp [lookup_index_all] at h; subst h; simp
  | cons a rest ih =>
    intro ls h
    cases hl : alLookup a idx with
    | none => simp [lookup_index_all, hl] at h
    | some li =>
      cases hr : lookup_index_all idx rest with
      | none => simp [lookup_index_all, hl, hr] at h
      | some ls2 =>
        simp [lookup_index_all, hl, hr] at h
        subst h
        simp [List.flatten_cons, ih hr, hl]

/-! ## Lemmas about the time window -/

theorem time_window_iff {q : Query} {e : IndexData} :
    time_window q e = true ↔
      (∀ st, q.start_time = some st → st.toNanos ≤ e.time.toNanos) ∧
        (∀ et, q.end_time = some et → e.time.toNanos ≤ et.toNanos) := by
  unfold time_window
  cases q.start_time <;> cases q.end_time <;> simp [Time.ltB] <;> omega

/-! ## Lemmas about BagIter::new and the iteration loop -/

theorem BagIter.new_eq {bag : Bag} {q : Query} {order : List Nat} {l : List IndexData}
    (h : BagIter.new bag q order = some l) :
    l = List.insertionSort entryLe
      ((order.flatMap (fun id => (alLookup id bag.index_data).getD [])).filter
        (time_window q)) := by
  unfold BagIter.new at h
  cases hl : lookup_index_all bag.index_data order with
  | none => rw [hl] at h; simp at h
  | some ls =>
    rw [hl] at h
    have h2 : List.insertionSort entryLe ((ls.flatten).filter (time_window q)) = l :=
      Option.some.inj h
    rw [← h2, lookup_index_all_flatten hl]

theorem BagIter.new_perm {bag : Bag} {q : Query} {order : List Nat} {l : List IndexData}
    (h : BagIter.new bag q order = some l) :
    l.Perm ((order.flatMap (fun id => (alLookup id bag.index_data).getD [])).filter
      (time_window q)) := by
  rw [BagIter.new_eq h]
  exact List.perm_insertionSort entryLe _

theorem BagIter.new_sorted {bag : Bag} {q : Query} {order : List Nat} {l : List IndexData}
    (h : BagIter.new bag q order = some l) : List.Sorted entryLe l := by
  rw [BagIter.new_eq h]
  exact List.sorted_insertionSort entryLe _

theorem mem_of_new {bag : Bag} {q : Query} {order : List Nat} {l : List IndexData}
    (h : BagIter.new bag q order = some l) {e : IndexData} (he : e ∈ l) :
    (∃ id ∈ order, ∃ li, alLookup id bag.index_data = some li ∧ e ∈ li) ∧
      time_window q e = true := by
  have hmem := (BagIter.new_perm h).mem_iff.mp he
  rcases List.mem_filter.mp hmem with ⟨hflat, hwin⟩
  rcases List.mem_flatMap.mp hflat with ⟨id, hid, hin⟩
  refine ⟨⟨id, hid, ?_⟩, hwin⟩
  cases hl : alLookup id bag.index_data with
  | none => rw [hl] at hin; simp at hin
  | some li => rw [hl] at hin; exact ⟨li, rfl, hin⟩

theorem mem_run_iter {dbag : DecompressedBag} :
    ∀ {l : List IndexData} {pr : IndexData × MessageView}, pr ∈ run_iter dbag l →
      pr.1 ∈ l ∧ next_entry dbag pr.1 = .yielded pr.2 := by
  intro l
  induction l with
  | nil => intro pr h; simp [run_iter] at h
  | cons e rest ih =>
    intro pr h
    unfold run_iter at h
    cases hn : next_entry dbag e with
    | yielded v =>
      rw [hn] at h
      rcases List.mem_cons.mp h with heq | htail
      · subst heq
        exact ⟨List.mem_cons_self _ _, hn⟩
      · rcases ih htail with ⟨h1, h2⟩
        exact ⟨List.mem_cons_of_mem _ h1, h2⟩
    | stopped => rw [hn] at h; simp at h
    | panicked => rw [hn] at h; simp at h

theorem run_iter_fst_sublist (dbag : DecompressedBag) :
    ∀ (l : List IndexData), ((run_iter dbag l).map Prod.fst).Sublist l := by
  intro l
  induction l with
  | nil => simp [run_iter]
  | cons e rest ih =>
    unfold run_iter
    cases hn : next_entry dbag e with
    | yielded v => simpa using List.Sublist.cons₂ e ih
    | stopped => simp
    | panicked => simp

theorem run_iter_length {dbag : DecompressedBag} :
    ∀ {l : List IndexData}, (∀ e ∈ l, isYielded (next_entry dbag e) = true) →
      (run_iter dbag l).length = l.length := by
  intro l
  induction l with
  | nil => intro _; simp [run_iter]
  | cons e rest ih =>
    intro h
    have h1 := h e (List.mem_cons_self _ _)
    unfold run_iter
    cases hn : next_entry dbag e with
    | yielded v =>
      simp [ih (fun x hx => h x (List.mem_cons_of_mem _ hx))]
    | stopped => rw [hn] at h1; simp [isYielded] at h1
    | panicked => rw [hn] at h1; simp [isYielded] at h1

theorem next_entry_yielded {dbag : DecompressedBag} {e : IndexData} {v : MessageView}
    (h : next_entry dbag e = .yielded v) :
    ∃ cd, alLookup e.conn_id dbag.metadata.connection_data = some cd ∧ v.topic = cd.topic := by
  unfold next_entry at h
  split at h
  next => exact absurd h (by simp)
  next cd hc =>
    refine ⟨cd, hc, ?_⟩
    split at h
    next => exact absurd h (by simp)
    next chunkBytes hb =>
      split at h
      next => exact absurd h (by simp)
      next headerLen hp =>
        dsimp only at h
        split at h
        next => exact absurd h (by simp)
        next =>
          split at h
          next => exact absurd h (by simp)
          next mh hm =>
            split at h
            next => exact absurd h (by simp)
            next dataLen hd =>
              cases h
              rfl

theorem length_filter_flatMap (g : Nat → List IndexData) (p : IndexData → Bool) :
    ∀ (order : List Nat),
      ((order.flatMap g).filter p).length =
        (order.map (fun id => ((g id).filter p).length)).sum := by
  intro order
  induction order with
  | nil => simp
  | cons a rest ih => simp [List.flatMap_cons, List.filter_append, ih]

/-- The unique connection matching an index entry yielded by the iterator:
conn-id consistency of the index table plus key-consistency and key
uniqueness of the connection table pin down the connection record. -/
theorem yielded_conn_of_selected {dbag : DecompressedBag} {q : Query} {order : List Nat}
    {l : List IndexData} (hconn : ConnWF dbag.metadata) (hidx : IndexWF dbag.metadata)
    (hv : ValidOrder dbag.metadata q order)
    (hnew : BagIter.new dbag.metadata q order = some l)
    {e : IndexData} (he : e ∈ l) :
    ∃ id, e.conn_id = id ∧ id ∈ selected_ids dbag.metadata q ∧
      (∀ p ∈ dbag.metadata.connection_data, p.2.connection_id = id →
        alLookup e.conn_id dbag.metadata.connection_data = some p.2) := by
  obtain ⟨⟨id, hid_order, li, hlk, heli⟩, _⟩ := mem_of_new hnew he
  have hpair := alLookup_mem hlk
  have hconnid : e.conn_id = id := hidx (id, li) hpair e heli
  refine ⟨id, hconnid, hv.mem_iff.mp hid_order, ?_⟩
  intro p hp hpid
  have hp1 : p.1 = id := (hconn.1 p hp).symm.trans hpid
  have hmem2 : (id, p.2) ∈ dbag.metadata.connection_data := by
    rw [← hp1]
    exact hp
  rw [hconnid]
  exact alLookup_of_mem_nodup hmem2 hconn.2

/-- C1 — Query soundness: every message yielded by the iterator satisfies
the topic filter (its view topic is one of the queried topics, when topics
are restricted), the type filter (its connection's type is one of the
queried types, when types are restricted), and the inclusive time window.
Timestamps are compared in the reader's order, the total nanosecond
position. -/
theorem frost_c1 (dbag : DecompressedBag) (q : Query) (order : List Nat) (l : List IndexData)
    (hconn : ConnWF dbag.metadata) (hidx : IndexWF dbag.metadata)
    (hv : ValidOrder dbag.metadata q order)
    (hnew : BagIter.new dbag.metadata q order = some l) :
    ∀ pr ∈ run_iter dbag l,
      (∀ ts, q.topics = some ts → pr.2.topic ∈ ts) ∧
        (∀ tys, q.types = some tys →
          ∃ cd, alLookup pr.1.conn_id dbag.metadata.connection_data = some cd ∧
            pr.2.topic = cd.topic ∧ cd.data_type ∈ tys) ∧
        (∀ st, q.start_time = some st → st.toNanos ≤ pr.1.time.toNanos) ∧
        (∀ et, q.end_time = some et → pr.1.time.toNanos ≤ et.toNanos) := by
  intro pr hpr
  obtain ⟨hmem, hnext⟩ := mem_run_iter hpr
  obtain ⟨_, hwin⟩ := mem_of_new hnew hmem
  obtain ⟨id, hconnid, hsel, huniq⟩ :=
    yielded_conn_of_selected hconn hidx hv hnew hmem
  obtain ⟨htop, htyp⟩ := mem_selected_ids.mp hsel
  obtain ⟨cd, hcd, hvtopic⟩ := next_entry_yielded hnext
  obtain ⟨hwin1, hwin2⟩ := time_window_iff.mp hwin
  refine ⟨?_, ?_, hwin1, hwin2⟩
  · intro ts hts
    rcases (mem_ids_from_topics_some hts).mp htop with ⟨t, htmem, p, hp, ptop, pid⟩
    have hlkp := huniq p hp pid
    rw [hcd] at hlkp
    have hcdeq : cd = p.2 := Option.some.inj hlkp
    rw [hvtopic, hcdeq, ptop]
    exact htmem
  · intro tys htys
    rcases (mem_ids_from_types_some htys).mp htyp with ⟨t, htmem, p, hp, pty, pid⟩
    have hlkp := huniq p hp pid
    rw [hcd] at hlkp
    have hcdeq : cd = p.2 := Option.some.inj hlkp
    refine ⟨cd, hcd, hvtopic, ?_⟩
    rw [hcdeq, pty]
    exact htmem

/-- C2 — Ordering: the timestamps of the messages yielded by one full
iteration, in yield order, are non-decreasing in the reader's time order. -/
theorem frost_c2 (dbag : DecompressedBag) (q : Query) (order : List Nat) (l : List IndexData)
    (hnew : BagIter.new dbag.metadata q order = some l) :
    List.Pairwise (fun a b : Time => a.toNanos ≤ b.toNanos)
      ((run_iter dbag l).map (fun pr => pr.1.time)) := by
  have hs : List.Pairwise entryLe l := BagIter.new_sorted hnew
  have hsub := run_iter_fst_sublist dbag l
  have hp : List.Pairwise entryLe ((run_iter dbag l).map Prod.fst) :=
    List.Pairwise.sublist hsub hs
  have hmap : (run_iter dbag l).map (fun pr => pr.1.time) =
      ((run_iter dbag l).map Prod.fst).map (fun e => e.time) := by
    rw [List.map_map]
    rfl
  rw [hmap]
  exact List.pairwise_map.mpr hp

/-- C3 (amended) — Round-trip count: when every selected in-window index
entry is readable (its chunk is present in the loaded chunk table and the
message record at its offset parses), the number of yielded messages equals
the sum over the selected connection ids of the number of that connection's
index entries inside the inclusive time window.  Without the readability
condition the iterator can stop early, see the counterexample. -/
theorem frost_c3 (dbag : DecompressedBag) (q : Query) (order : List Nat) (l : List IndexData)
    (hv : ValidOrder dbag.metadata q order)
    (hnew : BagIter.new dbag.metadata q order = some l)
    (hall : ∀ e ∈ l, isYielded (next_entry dbag e) = true) :
    (run_iter dbag l).length =
      (order.map (fun id =>
        (((alLookup id dbag.metadata.index_data).getD []).filter (time_window q)).length)).sum := by
  rw [run_iter_length hall, (BagIter.new_perm hnew).length_eq]
  exact length_filter_flatMap _ _ order

/-- C9 — index-lookup totality: the unwrap in BagIter::new cannot fire
exactly when every connection id of the connection table has an entry in
index_data; conversely, a connection with no index entry makes read_messages
panic (modelled as none) under the query selecting that connection's
topic. -/
theorem frost_c9 (bag : Bag) (hconn : ConnWF bag) :
    ((∀ p ∈ bag.connection_data, (alLookup p.1 bag.index_data).isSome = true) →
        ∀ q order, ValidOrder bag q order → (BagIter.new bag q order).isSome = true) ∧
      (∀ p ∈ bag.connection_data, alLookup p.1 bag.index_data = none →
        BagIter.new bag (topicQuery p.2) (selected_ids bag (topicQuery p.2)) = none) := by
  constructor
  · intro hall q order hv
    have hsome : (lookup_index_all bag.index_data order).isSome = true := by
      apply lookup_index_all_isSome
      intro id hid
      have hsel := hv.mem_iff.mp hid
      obtain ⟨htop, _⟩ := mem_selected_ids.mp hsel
      obtain ⟨p, hp, hpid⟩ := mem_ids_from_topics_conn htop
      have hp1 : p.1 = id := (hconn.1 p hp).symm.trans hpid
      rw [← hp1]
      exact hall p hp
    unfold BagIter.new
    cases hl : lookup_index_all bag.index_data order with
    | none => rw [hl] at hsome; simp at hsome
    | some ls => simp
  · intro p hp hnone
    have hmem : p.1 ∈ selected_ids bag (topicQuery p.2) := by
      apply mem_selected_ids.mpr
      constructor
      · apply (mem_ids_from_topics_some (q := topicQuery p.2) rfl).mpr
        exact ⟨p.2.topic, List.mem_cons_self _ _, p, hp, rfl, hconn.1 p hp⟩
      · apply (mem_ids_from_types_none (q := topicQuery p.2) rfl).mpr
        exact ⟨p, hp, hconn.1 p hp⟩
    unfold BagIter.new
    rw [lookup_index_all_none hmem hnone]

/-- C10 — unknown filter names are benign: a query whose topic list (or type
list) names no connection of the bag selects no connection, so the iterator
is built without error or panic and yields nothing. -/
theorem frost_c10 (bag : Bag) (q : Query) (order : List Nat)
    (hv : ValidOrder bag q order)
    (h : (∃ ts, q.topics = some ts ∧ ∀ t ∈ ts, ∀ p ∈ bag.connection_data, p.2.topic ≠ t) ∨
         (∃ tys, q.types = some tys ∧ ∀ t ∈ tys, ∀ p ∈ bag.connection_data, p.2.data_type ≠ t)) :
    BagIter.new bag q order = some [] ∧ ∀ dbag : DecompressedBag, run_iter dbag [] = [] := by
  have hsel : selected_ids bag q = [] := by
    rw [List.eq_nil_iff_forall_not_mem]
    intro id hid
    obtain ⟨htop, htyp⟩ := mem_selected_ids.mp hid
    rcases h with ⟨ts, hts, hnone⟩ | ⟨tys, htys, hnone⟩
    · rcases (mem_ids_from_topics_some hts).mp htop with ⟨t, htmem, p, hp, ptop, _⟩
      exact hnone t htmem p hp ptop
    · rcases (mem_ids_from_types_some htys).mp htyp with ⟨t, htmem, p, hp, pty, _⟩
      exact hnone t htmem p hp pty
  have horder : order = [] := by
    unfold ValidOrder at hv
    rw [hsel] at hv
    exact hv.eq_nil
  subst horder
  constructor
  · rfl
  · intro dbag
    rfl

/-! ## Determinism of iteration (C8) -/

/-- C8 (amended) — iteration determinism up to timestamp ties: two
iterator constructions over the same bag and query, under any two hash-set
enumeration orders of the selected ids, produce the same sorted entry list
and hence identical (topic, time, raw_bytes) streams, PROVIDED the selected
in-window entries have pairwise distinct timestamps.  With cross-connection
timestamp ties the two runs can differ, see the counterexample. -/
theorem frost_c8 (dbag : DecompressedBag) (q : Query) (order1 order2 : List Nat)
    (l1 l2 : List IndexData)
    (hv1 : ValidOrder dbag.metadata q order1) (hv2 : ValidOrder dbag.metadata q order2)
    (h1 : BagIter.new dbag.metadata q order1 = some l1)
    (h2 : BagIter.new dbag.metadata q order2 = some l2)
    (hne : l1.Pairwise (fun a b => a.time.toNanos ≠ b.time.toNanos)) :
    l1 = l2 ∧ yield_triples dbag l1 = yield_triples dbag l2 := by
  have hperm12 : order1.Perm order2 := hv1.trans hv2.symm
  have hp1 := BagIter.new_perm h1
  have hp2 := BagIter.new_perm h2
  have hflat := List.Perm.flatMap_right
    (fun id => (alLookup id dbag.metadata.index_data).getD []) hperm12
  have hfil := hflat.filter (time_window q)
  have hll : l1.Perm l2 := hp1.trans (hfil.trans hp2.symm)
  have hne2 : l2.Pairwise (fun a b => a.time.toNanos ≠ b.time.toNanos) :=
    (List.Perm.pairwise_iff (fun {a b} h => Ne.symm h) hll).mp hne
  have st1 : List.Sorted entryLt l1 :=
    ((BagIter.new_sorted h1).and hne).imp (fun h => Nat.lt_of_le_of_ne h.1 h.2)
  have st2 : List.Sorted entryLt l2 :=
    ((BagIter.new_sorted h2).and hne2).imp (fun h => Nat.lt_of_le_of_ne h.1 h.2)
  have heq : l1 = l2 := List.eq_of_perm_of_sorted hll st1 st2
  exact ⟨heq, by rw [heq]⟩

/-! ## Time order (C7) -/

/-- C7 (amended) — Time total order: for normalized times (nsecs below one
billion, as in every on-the-wire ROS time), the reader's comparison (by
total nanosecond position, the Duration-equivalent order) is exactly the
lexicographic order on (secs, nsecs), and it reports equality exactly on
field-wise equality.  For un-normalized nsecs values, which u32 admits, the
comparison identifies distinct field pairs, see the counterexample. -/
theorem frost_c7 (a b : Time) (ha : a.nsecs < 1000000000) (hb : b.nsecs < 1000000000) :
    (Time.cmp a b = Ordering.lt ↔
      (a.secs < b.secs ∨ (a.secs = b.secs ∧ a.nsecs < b.nsecs))) ∧
      (Time.cmp a b = Ordering.eq ↔ (a.secs = b.secs ∧ a.nsecs = b.nsecs)) := by
  unfold Time.cmp Time.toNanos
  constructor
  · rw [Nat.compare_eq_lt]
    omega
  · rw [Nat.compare_eq_eq]
    omega

/-! ## Magic rejection (C6) -/

/-- C6 (amended) — magic rejection: opening a byte stream that does not
start with the 13 magic bytes never succeeds; a stream of at least 13 bytes
fails with the NotARosbag error, while a shorter stream fails with the
UnexpectedEof I/O error of read_exact, not with NotARosbag (see the
counterexample). -/
theorem frost_c6 (bs : List Nat) (h : bs.take 13 ≠ rosbagMagic) :
    (bs.length < 13 → bag_from bs = .error .eof) ∧
      (13 ≤ bs.length → bag_from bs = .error .notARosbag) := by
  constructor
  · intro hlen
    have hv : version_check bs 0 = .error .eof := by
      unfold version_check readExact
      rw [if_neg (by omega)]
    unfold bag_from
    rw [hv]
  · intro hlen
    have hre : readExact bs 0 13 = .ok (bs.take 13, 13) := by
      unfold readExact
      rw [if_pos (by omega)]
      simp
    have hv : version_check bs 0 = .error .notARosbag := by
      unfold version_check
      rw [hre]
      simp [h]
    unfold bag_from
    rw [hv]

/-! ## Decompression (C5) -/

/-- C5 — decompression exactness (spec-modelled loader): a "none" chunk is
copied as-is; an "lz4" chunk is decoded from its raw body with the 11-byte
preamble and 8-byte trailer stripped, and a successfully loaded body has
exactly the declared uncompressed size, an output of any other length being
a Decompression error; any other compression string is an error. -/
theorem frost_c5 (lz4d : List Nat → Option (List Nat)) (comp raw : List Nat) (size : Nat) :
    (comp = strBytes "none" → decompress_chunk lz4d comp raw size = .ok raw) ∧
      (comp = strBytes "lz4" → ∀ body, decompress_chunk lz4d comp raw size = .ok body →
        body.length = size ∧
          lz4d ((raw.drop 11).take ((raw.drop 11).length - 8)) = some body) ∧
      (comp = strBytes "lz4" →
        ∀ out, lz4d ((raw.drop 11).take ((raw.drop 11).length - 8)) = some out →
          out.length ≠ size →
            decompress_chunk lz4d comp raw size = .error .decompressionFailed) ∧
      (comp ≠ strBytes "none" → comp ≠ strBytes "lz4" →
        decompress_chunk lz4d comp raw size = .error .unsupportedCompression) := by
  refine ⟨?_, ?_, ?_, ?_⟩
  · intro hc
    subst hc
    unfold decompress_chunk
    rw [if_pos rfl]
  · intro hc body hbody
    subst hc
    unfold decompress_chunk at hbody
    rw [if_neg (by decide), if_pos rfl] at hbody
    cases hlz : lz4d ((raw.drop 11).take ((raw.drop 11).length - 8)) with
    | none => rw [hlz] at hbody; simp at hbody
    | some out =>
      rw [hlz] at hbody
      dsimp only at hbody
      by_cases hsz : out.length = size
      · rw [if_pos hsz] at hbody
        injection hbody with h3
        subst h3
        exact ⟨hsz, rfl⟩
      · rw [if_neg hsz] at hbody
        simp at hbody
  · intro hc out hout hne
    subst hc
    unfold decompress_chunk
    rw [if_neg (by decide), if_pos rfl, hout]
    dsimp only
    rw [if_neg hne]
  · intro h1 h2
    unfold decompress_chunk
    rw [if_neg h1, if_neg h2]

/-! ## Count balance (C4) -/

theorem alInsert_length_le {κ β : Type} [DecidableEq κ] (k : κ) (v : β) :
    ∀ (m : List (κ × β)), (alInsert k v m).length ≤ m.length + 1 := by
  intro m
  induction m with
  | nil => simp [alInsert]
  | cons p rest ih =>
    by_cases hp : p.1 = k
    · simp [alInsert, hp]
    · simp [alInsert, hp]
      omega

theorem foldl_alInsert_length_le {κ β : Type} [DecidableEq κ] (f : β → κ) :
    ∀ (xs : List β) (acc : List (κ × β)),
      ((xs.foldl (fun acc x => alInsert (f x) x acc) acc).length) ≤ acc.length + xs.length := by
  intro xs
  induction xs with
  | nil => intro acc; simp
  | cons x xs ih =>
    intro acc
    rw [List.foldl_cons]
    calc ((xs.foldl (fun acc x => alInsert (f x) x acc) (alInsert (f x) x acc)).length)
        ≤ (alInsert (f x) x acc).length + xs.length := ih _
      _ ≤ (acc.length + 1) + xs.length := by
          have := alInsert_length_le (f x) x acc
          omega
      _ = acc.length + (x :: xs).length := by rw [List.length_cons]; omega

theorem alInsert_of_not_mem {κ β : Type} [DecidableEq κ] {k : κ} (v : β) :
    ∀ {m : List (κ × β)}, k ∉ m.map Prod.fst → alInsert k v m = m ++ [(k, v)] := by
  intro m
  induction m with
  | nil => intro _; simp [alInsert]
  | cons p rest ih =>
    intro hk
    have hp : p.1 ≠ k := by
      intro hh
      apply hk
      rw [List.map_cons]
      exact hh ▸ List.mem_cons_self p.1 (rest.map Prod.fst)
    have hk2 : k ∉ rest.map Prod.fst := by
      intro hh
      exact hk (by rw [List.map_cons]; exact List.mem_cons_of_mem _ hh)
    simp [alInsert, hp, ih hk2]

theorem foldl_alInsert_length_nodup {κ β : Type} [DecidableEq κ] (f : β → κ) :
    ∀ (xs : List β) (acc : List (κ × β)), (xs.map f).Nodup →
      (∀ x ∈ xs, f x ∉ acc.map Prod.fst) →
      ((xs.foldl (fun acc x => alInsert (f x) x acc) acc).length) =
        acc.length + xs.length := by
  intro xs
  induction xs with
  | nil => intro acc _ _; simp
  | cons x xs ih =>
    intro acc hnd hfresh
    rw [List.foldl_cons]
    have hx := hfresh x (List.mem_cons_self _ _)
    have hins : alInsert (f x) x acc = acc ++ [(f x, x)] := alInsert_of_not_mem x hx
    have hnd2 : (f x :: xs.map f).Nodup := by rw [List.map_cons] at hnd; exact hnd
    have hndc := List.nodup_cons.mp hnd2
    have hfresh2 : ∀ y ∈ xs, f y ∉ (alInsert (f x) x acc).map Prod.fst := by
      intro y hy hmem
      rw [hins, List.map_append] at hmem
      rcases List.mem_append.mp hmem with hmem1 | hmem2
      · exact hfresh y (List.mem_cons_of_mem _ hy) hmem1
      · simp at hmem2
        apply hndc.1
        rw [← hmem2]
        exact List.mem_map.mpr ⟨y, hy, rfl⟩
    rw [ih _ hndc.2 hfresh2, hins]
    simp only [List.length_append, List.length_cons, List.length_nil]
    omega

theorem join_chunks_length_le (chunk_infos : List (ChunkInfoHeader × List ChunkInfoData)) :
    ∀ (chunk_headers : List ChunkHeader),
      (join_chunks chunk_headers chunk_infos).length ≤ chunk_headers.length := by
  intro chunk_headers
  induction chunk_headers with
  | nil => simp [join_chunks]
  | cons ch chs ih =>
    unfold join_chunks at ih ⊢
    rw [List.flatMap_cons, List.length_append, List.length_cons]
    have hb : ((chunk_infos.find?
        (fun ci => ci.1.chunk_header_pos = ch.chunk_header_pos)).map
          (fun ci => mkChunkMetadata ch ci)).toList.length ≤ 1 := by
      cases chunk_infos.find? (fun ci => ci.1.chunk_header_pos = ch.chunk_header_pos) <;> simp
    omega

theorem join_chunks_map_pos (chunk_infos : List (ChunkInfoHeader × List ChunkInfoData)) :
    ∀ (chunk_headers : List ChunkHeader),
      (∀ ch ∈ chunk_headers, ∃ ci ∈ chunk_infos,
        ci.1.chunk_header_pos = ch.chunk_header_pos) →
      (join_chunks chunk_headers chunk_infos).map (fun md => md.chunk_header_pos) =
        chunk_headers.map (fun ch => ch.chunk_header_pos) := by
  intro chunk_headers
  induction chunk_headers with
  | nil => intro _; simp [join_chunks]
  | cons ch chs ih =>
    intro hmatch
    unfold join_chunks at ih ⊢
    rw [List.flatMap_cons, List.map_append, List.map_cons]
    obtain ⟨ci, hci, hpos⟩ := hmatch ch (List.mem_cons_self _ _)
    have hfind : (chunk_infos.find?
        (fun ci => ci.1.chunk_header_pos = ch.chunk_header_pos)).isSome := by
      apply List.find?_isSome.mpr
      exact ⟨ci, hci, by simp [hpos]⟩
    cases hf : chunk_infos.find? (fun ci => ci.1.chunk_header_pos = ch.chunk_header_pos) with
    | none => rw [hf] at hfind; simp at hfind
    | some ci2 =>
      rw [ih (fun c hc => hmatch c (List.mem_cons_of_mem _ hc))]
      rfl

/-- Position of the reader after a successful version check. -/
theorem version_check_pos {bs : List Nat} {pos : Nat} {vp : String × Nat}
    (h : version_check bs pos = .ok vp) : vp.2 = pos + 13 := by
  unfold version_check readExact at h
  by_cases hlen : pos + 13 ≤ bs.length
  · rw [if_pos hlen] at h
    dsimp only at h
    by_cases hm : (bs.drop pos).take 13 = rosbagMagic
    · rw [if_pos hm] at h
      injection h with h2
      rw [← h2]
    · rw [if_neg hm] at h
      simp at h
  · rw [if_neg hlen] at h
    simp at h

/-- C4 (amended) — count balance: a successfully opened bag passed the three
record-count checks, so the declared chunk_count equals the number of chunk
header records and of chunk-info records, and the declared conn_count equals
the number of connection records; but the final position-keyed
chunk_metadata table and id-keyed connection_data table only satisfy
size ≤ count, with the chunk table reaching chunk_count exactly when every
chunk header position has a matching chunk-info record and the header
positions are distinct — when positions do not pairwise match, joined
entries are silently dropped (see the counterexample). -/
theorem frost_c4 (bs : List Nat) (bag : Bag) (h : bag_from bs = .ok bag) :
    ∃ st bh, parse_records_loop bs (bs.length + 1) 13 initRecState = .ok st ∧
      st.bag_header = some bh ∧
      bh.chunk_count = st.chunk_headers.length ∧
      bh.chunk_count = st.chunk_infos.length ∧
      bh.conn_count = st.connections.length ∧
      bag.chunk_metadata.length ≤ bh.chunk_count ∧
      bag.connection_data.length ≤ bh.conn_count ∧
      ((∀ ch ∈ st.chunk_headers, ∃ ci ∈ st.chunk_infos,
          ci.1.chunk_header_pos = ch.chunk_header_pos) →
        (st.chunk_headers.map (fun ch => ch.chunk_header_pos)).Nodup →
        bag.chunk_metadata.length = bh.chunk_count) := by
  unfold bag_from at h
  cases hv : version_check bs 0 with
  | error e => rw [hv] at h; simp at h
  | ok vp =>
    rw [hv] at h
    obtain ⟨ver, pos0⟩ := vp
    have hpos : pos0 = 13 := by simpa using version_check_pos hv
    subst hpos
    dsimp only at h
    cases hpr : parse_records bs 13 with
    | error e => rw [hpr] at h; simp at h
    | ok out =>
      rw [hpr] at h
      obtain ⟨cm, cd, idx⟩ := out
      dsimp only at h
      unfold parse_records at hpr
      cases hloop : parse_records_loop bs (bs.length + 1) 13 initRecState with
      | error e => rw [hloop] at hpr; simp at hpr
      | ok st =>
        rw [hloop] at hpr
        dsimp only at hpr
        unfold parse_records_finish at hpr
        cases hbh : st.bag_header with
        | none => rw [hbh] at hpr; simp at hpr
        | some bh =>
          rw [hbh] at hpr
          dsimp only at hpr
          by_cases hc1 : bh.chunk_count ≠ st.chunk_headers.length
          · rw [if_pos hc1] at hpr; simp at hpr
          · rw [if_neg hc1] at hpr
            by_cases hc2 : bh.chunk_count ≠ st.chunk_infos.length
            · rw [if_pos hc2] at hpr; simp at hpr
            · rw [if_neg hc2] at hpr
              by_cases hc3 : bh.conn_count ≠ st.connections.length
              · rw [if_pos hc3] at hpr; simp at hpr
              · rw [if_neg hc3] at hpr
                injection hpr with hpr2
                injection hpr2 with hcm hrest
                injection hrest with hcd hidx
                have hbagfields : bag.chunk_metadata = cm ∧ bag.connection_data = cd := by
                  injection h with h4
                  rw [← h4]
                  exact ⟨rfl, rfl⟩
                push_neg at hc1 hc2 hc3
                refine ⟨st, bh, rfl, hbh, hc1, hc2, hc3, ?_, ?_, ?_⟩
                · rw [hbagfields.1, ← hcm]
                  have hle1 := foldl_alInsert_length_le
                    (fun md : ChunkMetadata => md.chunk_header_pos)
                    (join_chunks st.chunk_headers st.chunk_infos) []
                  have hle2 := join_chunks_length_le st.chunk_infos st.chunk_headers
                  simp at hle1
                  omega
                · rw [hbagfields.2, ← hcd]
                  have hle1 := foldl_alInsert_length_le
                    (fun c : ConnectionData => c.connection_id) st.connections []
                  simp at hle1
                  omega
                · intro hmatch hnd
                  rw [hbagfields.1, ← hcm]
                  have hmapeq := join_chunks_map_pos st.chunk_infos st.chunk_headers hmatch
                  have hndj : ((join_chunks st.chunk_headers st.chunk_infos).map
                      (fun md => md.chunk_header_pos)).Nodup := by
                    rw [hmapeq]
                    exact hnd
                  have hlen := foldl_alInsert_length_nodup
                    (fun md : ChunkMetadata => md.chunk_header_pos)
                    (join_chunks st.chunk_headers st.chunk_infos) [] hndj
                    (by intro x _ hx; simp at hx)
                  have hjlen : (join_chunks st.chunk_headers st.chunk_infos).length =
                      st.chunk_headers.length := by
                    have := congrArg List.length hmapeq
                    simpa using this
                  simp at hlen
                  omega

/-! ## Witnesses and counterexamples -/

set_option maxRecDepth 100000

/-- Witness for C1 at the concrete one-message bag. -/
theorem frost_c1_witness :
    ConnWF wdbag.metadata ∧ IndexWF wdbag.metadata ∧ ValidOrder wdbag.metadata wquery [0] ∧
      BagIter.new wdbag.metadata wquery [0] = some [wEntry] ∧
      ∀ pr ∈ run_iter wdbag [wEntry],
        (∀ ts, wquery.topics = some ts → pr.2.topic ∈ ts) ∧
          (∀ tys, wquery.types = some tys →
            ∃ cd, alLookup pr.1.conn_id wdbag.metadata.connection_data = some cd ∧
              pr.2.topic = cd.topic ∧ cd.data_type ∈ tys) ∧
          (∀ st, wquery.start_time = some st → st.toNanos ≤ pr.1.time.toNanos) ∧
          (∀ et, wquery.end_time = some et → pr.1.time.toNanos ≤ et.toNanos) :=
  ⟨by decide, by decide, by decide, by decide,
    frost_c1 wdbag wquery [0] [wEntry] (by decide) (by decide) (by decide) (by decide)⟩

/-- Witness for C2 at the concrete one-message bag. -/
theorem frost_c2_witness :
    BagIter.new wdbag.metadata wquery [0] = some [wEntry] ∧
      List.Pairwise (fun a b : Time => a.toNanos ≤ b.toNanos)
        ((run_iter wdbag [wEntry]).map (fun pr => pr.1.time)) :=
  ⟨by decide, frost_c2 wdbag wquery [0] [wEntry] (by decide)⟩

/-- Witness for C3 at the concrete one-message bag. -/
theorem frost_c3_witness :
    ValidOrder wdbag.metadata wquery [0] ∧
      BagIter.new wdbag.metadata wquery [0] = some [wEntry] ∧
      (∀ e ∈ [wEntry], isYielded (next_entry wdbag e) = true) ∧
      (run_iter wdbag [wEntry]).length =
        ([0].map (fun id =>
          (((alLookup id wdbag.metadata.index_data).getD []).filter
            (time_window wquery)).length)).sum :=
  ⟨by decide, by decide, by decide,
    frost_c3 wdbag wquery [0] [wEntry] (by decide) (by decide) (by decide)⟩

/-- Counterexample to C3 as stated: fixture F3 opens successfully, the
query selects one in-window index entry, yet the iterator yields zero
messages, because the joined chunk table dropped the chunk and no chunk body
was loaded. -/
theorem frost_c3_cex :
    bag_from f3bytes = .ok f3bag ∧
      DecompressedBag.from_bytes noLz4 f3bytes = .ok f3dbag ∧
      ValidOrder f3dbag.metadata Query.all [0] ∧
      ([0].map (fun id =>
        (((alLookup id f3dbag.metadata.index_data).getD []).filter
          (time_window Query.all)).length)).sum = 1 ∧
      (BagIter.new f3dbag.metadata Query.all [0]).map List.length = some 1 ∧
      (run_iter f3dbag ((BagIter.new f3dbag.metadata Query.all [0]).getD [])).length = 0 := by
  decide

/-- Witness for C4 at fixture F2, a bag whose chunk header and chunk-info
positions match. -/
theorem frost_c4_witness :
    bag_from f2bytes = .ok f2bag ∧
      ∃ st bh, parse_records_loop f2bytes (f2bytes.length + 1) 13 initRecState = .ok st ∧
        st.bag_header = some bh ∧
        bh.chunk_count = st.chunk_headers.length ∧
        bh.chunk_count = st.chunk_infos.length ∧
        bh.conn_count = st.connections.length ∧
        f2bag.chunk_metadata.length ≤ bh.chunk_count ∧
        f2bag.connection_data.length ≤ bh.conn_count ∧
        ((∀ ch ∈ st.chunk_headers, ∃ ci ∈ st.chunk_infos,
            ci.1.chunk_header_pos = ch.chunk_header_pos) →
          (st.chunk_headers.map (fun ch => ch.chunk_header_pos)).Nodup →
          f2bag.chunk_metadata.length = bh.chunk_count) :=
  ⟨by decide, frost_c4 f2bytes f2bag (by decide)⟩

/-- Counterexample to C4 as stated: fixture F4 opens successfully with
chunk_count 1 and conn_count 2, yet the final chunk_metadata table is empty
(the chunk-info position matches no header) and the final connection_data
table has one entry (two connection records share one id). -/
theorem frost_c4_cex :
    bag_from f4bytes = .ok f4bag ∧
      parse_records_loop f4bytes (f4bytes.length + 1) 13 initRecState = .ok f4st ∧
      f4st.bag_header = some { index_pos := 1, conn_count := 2, chunk_count := 1 } ∧
      f4st.chunk_headers.length = 1 ∧ f4st.chunk_infos.length = 1 ∧
      f4st.connections.length = 2 ∧
      f4bag.chunk_metadata.length = 0 ∧ f4bag.connection_data.length = 1 := by
  decide

/-- Witness for C5: an lz4 chunk whose decoder yields three bytes loads a
three-byte body. -/
theorem frost_c5_witness :
    decompress_chunk (fun _ => some [1, 2, 3]) (strBytes "lz4") c5raw 3 = .ok [1, 2, 3] ∧
      ([1, 2, 3] : List Nat).length = 3 :=
  ⟨by decide,
    ((frost_c5 (fun _ => some [1, 2, 3]) (strBytes "lz4") c5raw 3).2.1 rfl
      [1, 2, 3] (by decide)).1⟩

/-- Witness for C6: the empty stream fails with the EOF error. -/
theorem frost_c6_witness : bag_from [] = .error .eof :=
  (frost_c6 [] (by decide)).1 (by decide)

/-- Counterexample to C6 as stated: a stream shorter than 13 bytes fails
with the UnexpectedEof I/O error, which is not the NotARosbag error. -/
theorem frost_c6_cex : bag_from [72, 105] = .error Err.eof ∧ Err.eof ≠ Err.notARosbag := by
  decide

/-- Witness for C7 at two normalized times. -/
theorem frost_c7_witness :
    Time.cmp { secs := 1, nsecs := 5 } { secs := 1, nsecs := 7 } = Ordering.lt :=
  ((frost_c7 { secs := 1, nsecs := 5 } { secs := 1, nsecs := 7 }
    (by decide) (by decide)).1).mpr (Or.inr ⟨rfl, by decide⟩)

/-- Counterexample to C7 as stated: within the u32 range of nsecs, the pair
(0 s, 10^9 ns) is lexicographically below (1 s, 0 ns) and differs from it
field-wise, yet the reader's comparison reports the two as equal. -/
theorem frost_c7_cex :
    Time.cmp { secs := 0, nsecs := 1000000000 } { secs := 1, nsecs := 0 } = Ordering.eq ∧
      ((0 : Nat) < 1 ∨ ((0 : Nat) = 1 ∧ (1000000000 : Nat) < 0)) ∧
      ({ secs := 0, nsecs := 1000000000 } : Time) ≠ { secs := 1, nsecs := 0 } ∧
      (1000000000 : Nat) < 4294967296 := by
  decide

/-- Witness for C8 at the one-message bag, where timestamps are trivially
distinct. -/
theorem frost_c8_witness :
    ValidOrder wdbag.metadata wquery [0] ∧
      ([wEntry] = [wEntry] ∧
        yield_triples wdbag [wEntry] = yield_triples wdbag [wEntry]) :=
  ⟨by decide,
    frost_c8 wdbag wquery [0] [0] [wEntry] [wEntry]
      (by decide) (by decide) (by decide) (by decide) (by decide)⟩

/-- Counterexample to C8 as stated: fixture F2 holds two messages with equal
timestamps on different connections; the two hash-set enumeration orders
[0, 1] and [1, 0] are both valid and the two runs yield different
(topic, time, raw_bytes) streams. -/
theorem frost_c8_cex :
    bag_from f2bytes = .ok f2bag ∧
      DecompressedBag.from_bytes noLz4 f2bytes = .ok f2dbag ∧
      ValidOrder f2dbag.metadata Query.all [0, 1] ∧
      ValidOrder f2dbag.metadata Query.all [1, 0] ∧
      (BagIter.new f2dbag.metadata Query.all [0, 1]).map (yield_triples f2dbag) ≠
        (BagIter.new f2dbag.metadata Query.all [1, 0]).map (yield_triples f2dbag) := by
  decide

/-- Witness for C9: the bag recording connection 7 with no index entry makes
the iterator construction hit the unwrap (modelled none) under the query
selecting that connection's topic. -/
theorem frost_c9_witness :
    BagIter.new wbag9 (topicQuery wconn7) (selected_ids wbag9 (topicQuery wconn7)) = none :=
  (frost_c9 wbag9 (by decide)).2 (7, wconn7) (by decide) (by decide)

/-- Witness for C10: a query for an unknown topic yields an empty iterator
on the one-message bag. -/
theorem frost_c10_witness :
    BagIter.new wbag wquery10 [] = some [] ∧ ∀ dbag : DecompressedBag, run_iter dbag [] = [] :=
  frost_c10 wbag wquery10 [] (by decide) (Or.inl ⟨[strBytes "/zzz"], rfl, by decide⟩)

end Frost
